import Mathlib

/-!
# DicomImageDecoder

A shallow embedding of `OrthancServer/Internals/DicomImageDecoder.cpp` and
theorems about it.

Conventions of the embedding:

* bytes and machine integers are `Nat`/`Int`; where the C++ converts to a
  narrower type the conversion is written out (`toUint16`, `toInt8`, ...);
* a C++ call is a value of `Run`: it returns, throws, or performs a read
  outside a buffer (which C++ leaves undefined); loops run on fuel, and
  `Run.outOfFuel` is the only artefact of the model;
* the image buffer written by the decoder is passed explicitly: a function
  that modifies `target` returns the new `target` next to its `Run`;
* classes and library functions that this source file only uses
  (`boost::lexical_cast`, `DicomIntegerPixelAccessor`, the JPEG-LS decoder,
  the transcoding of DCMTK) are fields of `Toolkit`, a parameter.
-/

namespace Orthanc

/-! ## Outcomes -/

/-- The values of `ErrorCode` thrown by this file, and the one thrown by the
frame selection of the pixel accessor. -/
inductive ErrorCode where
  | InternalError
  | ParameterOutOfRange
  | NotImplemented
  | BadParameterType
  | BadFileFormat
  deriving DecidableEq, Repr

/-- C++ exceptions that can leave the functions of this file. -/
inductive Exception where
  /-- `throw OrthancException(code)` -/
  | orthanc (code : ErrorCode)
  /-- `boost::bad_lexical_cast`, thrown by `boost::lexical_cast` -/
  | bad_lexical_cast
  /-- `std::bad_cast`, thrown by a failed `dynamic_cast` to a reference -/
  | bad_cast
  deriving DecidableEq, Repr

/-- Outcome of running a piece of the C++ code. -/
inductive Run (α : Type) where
  /-- normal completion with a value -/
  | returns (a : α)
  /-- an exception propagates to the caller -/
  | throws (e : Exception)
  /-- the code reads element `index` of a buffer of `size` elements, with
  `size ≤ index`: undefined behaviour, nothing is reported to the caller -/
  | outOfRangeRead (index size : Nat)
  /-- the model ran out of fuel (never happens with the fuel the callers give) -/
  | outOfFuel
  deriving DecidableEq, Repr

/-! ## Data model -/

/-- Pixel formats of `Core/Enumerations.h` that this file mentions. -/
inductive PixelFormat where
  | RGB24
  | RGBA32
  | Grayscale8
  | Grayscale16
  | SignedGrayscale16
  deriving DecidableEq, Repr

/-- The transfer syntaxes of DCMTK that this file tests for, and the others. -/
inductive E_TransferSyntax where
  | EXS_Unknown
  | EXS_LittleEndianImplicit
  | EXS_BigEndianImplicit
  | EXS_LittleEndianExplicit
  | EXS_BigEndianExplicit
  | EXS_JPEGLSLossless
  | EXS_JPEGLSLossy
  /-- any other value of the enumeration, by its number -/
  | EXS_Other (code : Nat)
  deriving DecidableEq, Repr

/-- What this file observes of a `DcmElement`. -/
structure DcmElement where
  /-- `isaString()` -/
  isaString : Bool
  /-- `getString(c)`: `none` when the call is not good or leaves `c == NULL` -/
  getString : Option String
  /-- `getUint8Array(pixData)`: `none` when the result is not `EC_Normal`;
  `getLength()` is the length of the array -/
  getUint8Array : Option (List Nat)
  /-- whether `dynamic_cast<DcmPixelData&>` succeeds -/
  isPixelData : Bool
  deriving DecidableEq, Repr

/-- What this file observes of a `DcmDataset`. A tag is `none` when
`findAndGetOFString` (resp. `findAndGetElement`) is not good or yields `NULL`. -/
structure DcmDataset where
  /-- `getOriginalXfer()` -/
  originalXfer : E_TransferSyntax
  /-- `DICOM_TAG_COLUMNS` as a string -/
  columns : Option String
  /-- `DICOM_TAG_ROWS` as a string -/
  rows : Option String
  /-- `DICOM_TAG_BITS_STORED` as a string -/
  bitsStored : Option String
  /-- `DICOM_TAG_PIXEL_REPRESENTATION` as a string -/
  pixelRepresentation : Option String
  /-- `DICOM_TAG_SAMPLES_PER_PIXEL` as a string -/
  samplesPerPixel : Option String
  /-- `DICOM_TAG_PIXEL_DATA` -/
  pixelData : Option DcmElement
  /-- `DICOM_TAG_COMPRESSION_TYPE`, (0x07a1, 0x1011) -/
  compressionType : Option DcmElement
  /-- `DICOM_TAG_CONTENT`, (0x07a1, 0x100a) -/
  content : Option DcmElement
  deriving DecidableEq, Repr

/-- One assignment `*pixel = value`, where `pixel` points to element `index`
of row `row` of the target image. -/
structure PixelStore where
  row : Nat
  index : Nat
  value : Int
  deriving DecidableEq, Repr

/-- The `ImageBuffer` that receives the decoded image: its three properties
and the assignments made to its pixels, oldest first. -/
structure ImageBuffer where
  format : PixelFormat
  width : Nat
  height : Nat
  stores : List PixelStore
  deriving DecidableEq, Repr

/-- `ImageBuffer::SetWidth` -/
def ImageBuffer.SetWidth (target : ImageBuffer) (width : Nat) : ImageBuffer :=
  { target with width := width }

/-- `ImageBuffer::SetHeight` -/
def ImageBuffer.SetHeight (target : ImageBuffer) (height : Nat) : ImageBuffer :=
  { target with height := height }

/-- `ImageBuffer::SetFormat` -/
def ImageBuffer.SetFormat (target : ImageBuffer) (format : PixelFormat) : ImageBuffer :=
  { target with format := format }

/-- Content of element `index` of row `row`: the value last assigned to it,
if any. -/
def ImageBuffer.pixel (target : ImageBuffer) (row index : Nat) : Option Int :=
  (target.stores.reverse.find? (fun s => s.row = row ∧ s.index = index)).map PixelStore.value

/-- What `CopyPixels` observes of a `DicomIntegerPixelAccessor`. -/
structure DicomIntegerPixelAccessor where
  /-- `GetWidth()` -/
  width : Nat
  /-- `GetHeight()` -/
  height : Nat
  /-- `GetChannelCount()` -/
  channelCount : Nat
  /-- `GetValue(x, y, channel)`, an `int32_t` -/
  GetValue : Nat → Nat → Nat → Int

/-- The library code this file calls. -/
structure Toolkit where
  /-- `boost::lexical_cast<unsigned int>`: `none` when it throws
  `boost::bad_lexical_cast` -/
  lexical_cast : String → Option Nat
  /-- `new DicomIntegerPixelAccessor(m, pixData, size)`, with `m` the tags of
  the dataset -/
  newAccessor : DcmDataset → List Nat → Except Exception DicomIntegerPixelAccessor
  /-- `SetCurrentFrame(frame)` -/
  SetCurrentFrame : DicomIntegerPixelAccessor → Nat → Except Exception DicomIntegerPixelAccessor
  /-- value of the compilation flag `ORTHANC_JPEG_LOSSLESS_ENABLED == 1` -/
  jpegLosslessEnabled : Bool
  /-- whether `getEncapsulatedRepresentation` on the pixel data is good -/
  getEncapsulatedRepresentation : DcmDataset → DcmElement → Bool
  /-- `DJLSLosslessDecoder::decodeFrame` into the buffer of the target:
  whether the condition it returns is good, and the target it leaves -/
  decodeFrame : DcmDataset → Nat → ImageBuffer → Bool × ImageBuffer
  /-- `dataset.clone()` followed by
  `chooseRepresentation(EXS_LittleEndianExplicit, NULL)` -/
  chooseRepresentation : DcmDataset → DcmDataset
  /-- `canWriteXfer(EXS_LittleEndianExplicit)` -/
  canWriteXfer : DcmDataset → Bool

/-! ## `IsPsmctRle1` -/

/-- `DicomImageDecoder::IsPsmctRle1` -/
def IsPsmctRle1 (dataset : DcmDataset) : Bool :=
  match dataset.compressionType with
  | none => false
  | some e =>
    if !e.isaString then false
    else
      match e.getString with
      | none => false
      | some c => if c ≠ "PMSCT_RLE1" then false else true

/-! ## `DecodePsmctRle1` -/

/-- The inner loop
`for (uint8_t repeat = inbuffer[i + 1]; repeat != 0; repeat--) temp.push_back(inbuffer[i+2]);`
with `v` the value of `inbuffer[i+2]`. -/
def rleRepeat (v : Nat) : Nat → List Nat → List Nat
  | 0, temp => temp
  | r + 1, temp => rleRepeat v r (temp ++ [v])

/-- The loop of the RLE pass, from index `i` with `temp` built so far. -/
def rleLoop (inbuffer : List Nat) : Nat → Nat → List Nat → Run (List Nat)
  | 0, i, temp =>
    if i < inbuffer.length then .outOfFuel else .returns temp
  | fuel + 1, i, temp =>
    if i < inbuffer.length then
      match inbuffer[i]? with
      | none => .outOfRangeRead i inbuffer.length
      | some b =>
        if b = 0xa5 then
          match inbuffer[i + 2]? with
          | none => .outOfRangeRead (i + 2) inbuffer.length
          | some v =>
            match inbuffer[i + 1]? with
            | none => .outOfRangeRead (i + 1) inbuffer.length
            | some r => rleLoop inbuffer fuel (i + 2 + 1) (rleRepeat v r (temp ++ [v]))
        else
          rleLoop inbuffer fuel (i + 1) (temp ++ [b])
    else .returns temp

/-- The RLE pass: `temp` after the loop over `inbuffer[0 .. length)`. -/
def rlePass (inbuffer : List Nat) : Run (List Nat) :=
  rleLoop inbuffer inbuffer.length 0 []

/-- Conversion of an `int` to `uint16_t`. -/
def toUint16 (x : Int) : Nat := (x % 65536).toNat

/-- The conversion `(int8_t) b` of a byte. -/
def toInt8 (b : Nat) : Int :=
  if b % 256 < 128 then (b % 256 : Nat) else ((b % 256 : Nat) : Int) - 256

/-- One iteration of the loop of the delta pass at index `i` (with
`i < temp.size()`): the index, `delta` and `output` it leaves, the index
being the one after `i++`. -/
def deltaStep (temp : List Nat) (i delta : Nat) (output : List Nat) :
    Run (Nat × Nat × List Nat) :=
  match temp[i]? with
  | none => .outOfRangeRead i temp.length
  | some b =>
    if b = 0x5a then
      match temp[i + 1]? with
      | none => .outOfRangeRead (i + 1) temp.length
      | some v1 =>
        match temp[i + 2]? with
        | none => .outOfRangeRead (i + 2) temp.length
        | some v2 =>
          let value := toUint16 (((v2 : Int) * 256) + v1)
          .returns (i + 2 + 1, value, output ++ [value % 256, value / 256])
    else
      let value := toUint16 ((delta : Int) + toInt8 b)
      .returns (i + 1, value, output ++ [value % 256, value / 256])

/-- The loop of the delta pass, from index `i`. -/
def deltaLoop (temp : List Nat) : Nat → Nat → Nat → List Nat → Run (List Nat)
  | 0, i, _, output =>
    if i < temp.length then .outOfFuel else .returns output
  | fuel + 1, i, delta, output =>
    if i < temp.length then
      match deltaStep temp i delta output with
      | .returns (i', delta', output') => deltaLoop temp fuel i' delta' output'
      | .throws e => .throws e
      | .outOfRangeRead k n => .outOfRangeRead k n
      | .outOfFuel => .outOfFuel
    else .returns output

/-- The delta pass: `output` after the loop over `temp`, with `delta = 0` and
`output` cleared at the start. -/
def deltaPass (temp : List Nat) : Run (List Nat) :=
  deltaLoop temp temp.length 0 0 []

/-- The final `if (output.size() % 2) output.resize(output.size() - 1);` -/
def trimOdd (output : List Nat) : List Nat :=
  if output.length % 2 ≠ 0 then output.take (output.length - 1) else output

/-- `DicomImageDecoder::DecodePsmctRle1`: the boolean returned and the
content of `output` on return. -/
def DecodePsmctRle1 (output : List Nat) (dataset : DcmDataset) : Run (Bool × List Nat) :=
  if !IsPsmctRle1 dataset then .returns (false, output)
  else
    match dataset.content with
    | none => .returns (false, output)
    | some e =>
      match e.getUint8Array with
      | none => .returns (false, output)
      | some inbuffer =>
        match rlePass inbuffer with
        | .returns temp =>
          match deltaPass temp with
          | .returns out => .returns (true, trimOdd out)
          | .throws ex => .throws ex
          | .outOfRangeRead k n => .outOfRangeRead k n
          | .outOfFuel => .outOfFuel
        | .throws ex => .throws ex
        | .outOfRangeRead k n => .outOfRangeRead k n
        | .outOfFuel => .outOfFuel

/-! ## `SetupImageBuffer` -/

/-- `DicomImageDecoder::SetupImageBuffer`: its outcome and the target it
leaves. -/
def SetupImageBuffer (tk : Toolkit) (target : ImageBuffer) (dataset : DcmDataset) :
    Run Unit × ImageBuffer :=
  match dataset.columns with
  | none => (.throws (.orthanc .BadFileFormat), target)
  | some value =>
  match tk.lexical_cast value with
  | none => (.throws .bad_lexical_cast, target)
  | some width =>
  match dataset.rows with
  | none => (.throws (.orthanc .BadFileFormat), target)
  | some value =>
  match tk.lexical_cast value with
  | none => (.throws .bad_lexical_cast, target)
  | some height =>
  match dataset.bitsStored with
  | none => (.throws (.orthanc .BadFileFormat), target)
  | some value =>
  match tk.lexical_cast value with
  | none => (.throws .bad_lexical_cast, target)
  | some bitsStored =>
  match dataset.pixelRepresentation with
  | none => (.throws (.orthanc .BadFileFormat), target)
  | some value =>
  match tk.lexical_cast value with
  | none => (.throws .bad_lexical_cast, target)
  | some pixelRepresentation =>
  let isSigned : Bool := pixelRepresentation != 0
  let samples : Option Nat :=
    match dataset.samplesPerPixel with
    | none => some 1
    | some value => tk.lexical_cast value
  match samples with
  | none => (.throws .bad_lexical_cast, target)
  | some samplesPerPixel =>
  let target := target.SetHeight height
  let target := target.SetWidth width
  if bitsStored = 8 ∧ samplesPerPixel = 1 ∧ !isSigned then
    (.returns (), target.SetFormat .Grayscale8)
  else if bitsStored = 8 ∧ samplesPerPixel = 3 ∧ !isSigned then
    (.returns (), target.SetFormat .RGB24)
  else if bitsStored = 16 ∧ samplesPerPixel = 1 ∧ !isSigned then
    (.returns (), target.SetFormat .Grayscale16)
  else if bitsStored = 16 ∧ samplesPerPixel = 1 ∧ isSigned then
    (.returns (), target.SetFormat .SignedGrayscale16)
  else
    (.throws (.orthanc .NotImplemented), target)

/-! ## Classification of the transfer syntax -/

/-- `DicomImageDecoder::IsJpegLossless` -/
def IsJpegLossless (dataset : DcmDataset) : Bool :=
  dataset.originalXfer = .EXS_JPEGLSLossless ||
  dataset.originalXfer = .EXS_JPEGLSLossy

/-- `DicomImageDecoder::IsUncompressedImage` -/
def IsUncompressedImage (dataset : DcmDataset) : Bool :=
  dataset.originalXfer = .EXS_Unknown ||
  dataset.originalXfer = .EXS_LittleEndianImplicit ||
  dataset.originalXfer = .EXS_BigEndianImplicit ||
  dataset.originalXfer = .EXS_LittleEndianExplicit ||
  dataset.originalXfer = .EXS_BigEndianExplicit

/-! ## `CopyPixels` -/

/-- The types `CopyPixels` is instantiated with. -/
inductive PixelType where
  | uint8_t
  | uint16_t
  | int16_t
  deriving DecidableEq, Repr

/-- `std::numeric_limits<PixelType>::min()` -/
def PixelType.minValue : PixelType → Int
  | .uint8_t => 0
  | .uint16_t => 0
  | .int16_t => -32768

/-- `std::numeric_limits<PixelType>::max()` -/
def PixelType.maxValue : PixelType → Int
  | .uint8_t => 255
  | .uint16_t => 65535
  | .int16_t => 32767

/-- `static_cast<PixelType>(v)` of an `int32_t`: the value modulo `2^8` or
`2^16`, taken in the range of the type. -/
def PixelType.static_cast : PixelType → Int → Int
  | .uint8_t, v => v % 256
  | .uint16_t, v => v % 65536
  | .int16_t, v => (v + 32768) % 65536 - 32768

/-- The value assigned to `*pixel` for the source value `v`: the body of the
innermost loop of `CopyPixels`. -/
def copyValue (T : PixelType) (v : Int) : Int :=
  if v < T.minValue then T.minValue
  else if v > T.maxValue then T.maxValue
  else T.static_cast v

/-- The loop over the channels `c` of pixel `x` of row `y`; `pixel` is the
index in the row that the pointer `pixel` has reached. -/
def copyChannels (T : PixelType) (source : DicomIntegerPixelAccessor) (x y : Nat)
    (state : Nat × ImageBuffer) : Nat × ImageBuffer :=
  (List.range source.channelCount).foldl
    (fun st c =>
      (st.1 + 1,
       { st.2 with
         stores := st.2.stores ++ [⟨y, st.1, copyValue T (source.GetValue x y c)⟩] }))
    state

/-- The loop over the pixels `x` of row `y`, `pixel` starting at `GetRow(y)`. -/
def copyRow (T : PixelType) (source : DicomIntegerPixelAccessor) (y : Nat)
    (target : ImageBuffer) : ImageBuffer :=
  ((List.range source.width).foldl
    (fun st x => copyChannels T source x y st) (0, target)).2

/-- `CopyPixels<PixelType>`: the target after the loop over the rows `y`. -/
def CopyPixels (T : PixelType) (target : ImageBuffer)
    (source : DicomIntegerPixelAccessor) : ImageBuffer :=
  (List.range source.height).foldl (fun t y => copyRow T source y t) target

/-! ## The decoders -/

/-- Change of the value returned, the other outcomes being propagated. -/
def Run.map {α β : Type} (f : α → β) : Run α → Run β
  | .returns a => .returns (f a)
  | .throws e => .throws e
  | .outOfRangeRead k n => .outOfRangeRead k n
  | .outOfFuel => .outOfFuel

/-- The part of `DecodeUncompressedImageInternal` that creates the accessor
to the raw values: the value of `source`, `none` for a null pointer. -/
def pixelSource (tk : Toolkit) (dataset : DcmDataset) :
    Run (Option DicomIntegerPixelAccessor) :=
  match dataset.pixelData with
  | some e =>
    match e.getUint8Array with
    | some pixData =>
      match tk.newAccessor dataset pixData with
      | .ok source => .returns (some source)
      | .error ex => .throws ex
    | none => .returns none
  | none =>
    match DecodePsmctRle1 [] dataset with
    | .returns (true, privateContent) =>
      match tk.newAccessor dataset privateContent with
      | .ok source => .returns (some source)
      | .error ex => .throws ex
    | .returns (false, _) => .returns none
    | .throws ex => .throws ex
    | .outOfRangeRead k n => .outOfRangeRead k n
    | .outOfFuel => .outOfFuel

/-- `DicomImageDecoder::DecodeUncompressedImageInternal` -/
def DecodeUncompressedImageInternal (tk : Toolkit) (target : ImageBuffer)
    (dataset : DcmDataset) (frame : Nat) : Run Unit × ImageBuffer :=
  match pixelSource tk dataset with
  | .throws ex => (.throws ex, target)
  | .outOfRangeRead k n => (.outOfRangeRead k n, target)
  | .outOfFuel => (.outOfFuel, target)
  | .returns none => (.throws (.orthanc .BadFileFormat), target)
  | .returns (some source) =>
    match tk.SetCurrentFrame source frame with
    | .error ex => (.throws ex, target)
    | .ok source =>
      match SetupImageBuffer tk target dataset with
      | (.returns (), target) =>
        if target.width ≠ target.width ∨ target.height ≠ target.height then
          (.throws (.orthanc .InternalError), target)
        else
          let ok : Bool :=
            match target.format with
            | .RGB24 => source.channelCount = 3
            | .RGBA32 => source.channelCount = 4
            | .Grayscale8 => source.channelCount = 1
            | .Grayscale16 => source.channelCount = 1
            | .SignedGrayscale16 => source.channelCount = 1
          if !ok then (.throws (.orthanc .InternalError), target)
          else
            match target.format with
            | .RGB24 => (.returns (), CopyPixels .uint8_t target source)
            | .RGBA32 => (.returns (), CopyPixels .uint8_t target source)
            | .Grayscale8 => (.returns (), CopyPixels .uint8_t target source)
            | .Grayscale16 => (.returns (), CopyPixels .uint16_t target source)
            | .SignedGrayscale16 => (.returns (), CopyPixels .int16_t target source)
      | (r, target) => (r, target)

/-- `DicomImageDecoder::DecodeUncompressedImage` -/
def DecodeUncompressedImage (tk : Toolkit) (target : ImageBuffer)
    (dataset : DcmDataset) (frame : Nat) : Run Unit × ImageBuffer :=
  if !IsUncompressedImage dataset then (.throws (.orthanc .BadParameterType), target)
  else DecodeUncompressedImageInternal tk target dataset frame

/-- `DicomImageDecoder::DecodeJpegLossless` -/
def DecodeJpegLossless (tk : Toolkit) (target : ImageBuffer)
    (dataset : DcmDataset) (frame : Nat) : Run Unit × ImageBuffer :=
  if !IsJpegLossless dataset then (.throws (.orthanc .BadParameterType), target)
  else
    match dataset.pixelData with
    | none => (.throws (.orthanc .BadFileFormat), target)
    | some element =>
      if !element.isPixelData then (.throws .bad_cast, target)
      else if !tk.getEncapsulatedRepresentation dataset element then
        (.throws (.orthanc .BadFileFormat), target)
      else
        match SetupImageBuffer tk target dataset with
        | (.returns (), target) =>
          match tk.decodeFrame dataset frame target with
          | (true, target) => (.returns (), target)
          | (false, target) => (.throws (.orthanc .InternalError), target)
        | (r, target) => (r, target)

/-- `DicomImageDecoder::Decode`: the boolean returned, or the exception, and
the target it leaves. -/
def Decode (tk : Toolkit) (target : ImageBuffer) (dataset : DcmDataset) (frame : Nat) :
    Run Bool × ImageBuffer :=
  if IsUncompressedImage dataset then
    let r := DecodeUncompressedImage tk target dataset frame
    (r.1.map (fun _ => true), r.2)
  else if tk.jpegLosslessEnabled && IsJpegLossless dataset then
    let r := DecodeJpegLossless tk target dataset frame
    (r.1.map (fun _ => true), r.2)
  else
    let converted := tk.chooseRepresentation dataset
    if tk.canWriteXfer converted then
      let r := DecodeUncompressedImageInternal tk target converted frame
      (r.1.map (fun _ => true), r.2)
    else
      (.returns false, target)

/-! ## Reference definitions of the specification -/

/-- Reference expansion of the run-length pass, in the words of the
specification: scan left to right, replace a triple `[0xA5, R, V]` by `R + 1`
copies of `V`, copy any other byte unchanged. It is `none` when a marker is
not followed by two bytes. -/
def rleReference : List Nat → Option (List Nat)
  | [] => some []
  | b :: rest =>
    if b = 0xa5 then
      match rest with
      | r :: v :: rest' => (rleReference rest').map (fun tl => List.replicate (r + 1) v ++ tl)
      | _ => none
    else (rleReference rest).map (fun tl => b :: tl)

/-- Each marker `0xA5` met at the scan position is followed by at least two
bytes. -/
def rleEscapesComplete : List Nat → Bool
  | [] => true
  | b :: rest =>
    if b = 0xa5 then
      match rest with
      | _ :: _ :: rest' => rleEscapesComplete rest'
      | _ => false
    else rleEscapesComplete rest

/-- A byte read as a signed 8-bit value. -/
def signed8 (b : Nat) : Int := if b < 128 then (b : Int) else (b : Int) - 256

/-- Sum of the bytes `b[0], ..., b[k]`, each read as a signed 8-bit value. -/
def signedPrefixSum (b : List Nat) (k : Nat) : Int := ((b.take (k + 1)).map signed8).sum

/-- Output of the delta expansion of a buffer without escape, in the words
of the specification: each byte, read as a signed 8-bit value, is added to
`delta` with 16-bit wraparound; the sum is the next sample, written low byte
first, and the new `delta`. -/
def deltaReference (delta : Nat) : List Nat → List Nat
  | [] => []
  | b :: rest =>
    let sample := (((delta : Int) + signed8 b) % 65536).toNat
    sample % 256 :: sample / 256 :: deltaReference sample rest

/-- Channel count a format requires of its pixel source, after the
specification: 3 for RGB24, 4 for RGBA32, 1 for the grayscale formats. -/
def requiredChannelCount : PixelFormat → Nat
  | .RGB24 => 3
  | .RGBA32 => 4
  | .Grayscale8 => 1
  | .Grayscale16 => 1
  | .SignedGrayscale16 => 1

/-- Sample type of the copy routine of a format, after the specification:
8-bit unsigned for Grayscale8, RGB24 and RGBA32, 16-bit unsigned for
Grayscale16, 16-bit signed for SignedGrayscale16. -/
def copyTypeOf : PixelFormat → PixelType
  | .RGB24 => .uint8_t
  | .RGBA32 => .uint8_t
  | .Grayscale8 => .uint8_t
  | .Grayscale16 => .uint16_t
  | .SignedGrayscale16 => .int16_t

/-- The assignments the specification asks of the copy for pixel `x` of row
`y`: element `x * n + c` of the row receives the saturated value of the
sample `(x, y, c)`, for each channel `c` below the channel count `n`. -/
def pixelStoresSpec (T : PixelType) (source : DicomIntegerPixelAccessor) (y x : Nat) :
    List PixelStore :=
  (List.range source.channelCount).map fun c =>
    ⟨y, x * source.channelCount + c, copyValue T (source.GetValue x y c)⟩

/-- The assignments the specification asks of the copy for row `y`: those
of its pixels `x` below the width. -/
def rowStoresSpec (T : PixelType) (source : DicomIntegerPixelAccessor) (y : Nat) :
    List PixelStore :=
  (List.range source.width).flatMap (pixelStoresSpec T source y)

/-- The assignments the specification asks of the copy: those of the rows
`y` below the height. -/
def copyStoresSpec (T : PixelType) (source : DicomIntegerPixelAccessor) : List PixelStore :=
  (List.range source.height).flatMap (rowStoresSpec T source)

/-- The element an assignment writes: its row and its index in the row. -/
def PixelStore.element (s : PixelStore) : Nat × Nat := (s.row, s.index)

/-- Number of samples the delta pass produces from an intermediate buffer,
in the words of the specification: one per triple `[0x5A, lo, hi]` and one
per byte other than 0x5A met at the scan position (a marker that is not
followed by two bytes produces none and ends the count). -/
def deltaSampleCount : List Nat → Nat
  | [] => 0
  | b :: rest =>
    if b = 0x5a then
      match rest with
      | _ :: _ :: rest' => 1 + deltaSampleCount rest'
      | _ => 0
    else 1 + deltaSampleCount rest

/-! ## Example inputs -/

/-- Value of a string of decimal digits, `none` for any other string. -/
def decimalDigits : List Char → Option Nat → Option Nat
  | [], acc => acc
  | c :: cs, acc =>
    if '0' ≤ c ∧ c ≤ '9' then
      decimalDigits cs (some (10 * acc.getD 0 + (c.toNat - 48)))
    else none

/-- An instance of the library code: decimal parsing, an accessor of one
row of 16-bit little-endian samples, no transcoding. -/
def exampleToolkit : Toolkit where
  lexical_cast := fun s => decimalDigits s.data none
  newAccessor := fun _ bytes =>
    .ok ⟨bytes.length / 2, 1, 1,
      fun x _ _ => ((bytes.getD (2 * x) 0 + 256 * bytes.getD (2 * x + 1) 0 : Nat) : Int)⟩
  SetCurrentFrame := fun a _ => .ok a
  jpegLosslessEnabled := true
  getEncapsulatedRepresentation := fun _ _ => true
  decodeFrame := fun _ _ t => (true, t)
  chooseRepresentation := fun d => d
  canWriteXfer := fun _ => false

/-- An empty target image. -/
def exampleTarget : ImageBuffer := ⟨.Grayscale8, 0, 0, []⟩

/-- A source of 2x2 pixels of three channels whose samples leave the range
of 8 bits on both sides. -/
def exampleSource : DicomIntegerPixelAccessor :=
  ⟨2, 2, 3, fun x y c => 300 * (x : Int) + 10 * (y : Int) + (c : Int) - 5⟩

/-- A string element. -/
def stringElement (s : String) : DcmElement := ⟨true, some s, none, false⟩

/-- A binary element. -/
def bytesElement (isPixelData : Bool) (bytes : List Nat) : DcmElement :=
  ⟨false, none, some bytes, isPixelData⟩

/-- A 2x1 unsigned 16-bit image in the PMSCT_RLE1 encoding, without native
pixel data; `content` is the private content. -/
def rle1Dataset (content : List Nat) : DcmDataset where
  originalXfer := .EXS_LittleEndianImplicit
  columns := some "2"
  rows := some "1"
  bitsStored := some "16"
  pixelRepresentation := some "0"
  samplesPerPixel := some "1"
  pixelData := none
  compressionType := some (stringElement "PMSCT_RLE1")
  content := some (bytesElement false content)

/-! ## Theorems -/

/-! ### `SetupImageBuffer` -/

/-- C1: when the five attributes of `SetupImageBuffer` are present and parse
to `w`, `h`, `b`, `p`, `s`, the target gets width `w`, height `h` and the
format Grayscale8 for (b, s, p) = (8, 1, unsigned), RGB24 for (8, 3, unsigned),
Grayscale16 for (16, 1, unsigned), SignedGrayscale16 for (16, 1, signed),
signed meaning `p ≠ 0`; for every other triple it throws NotImplemented. -/
theorem SetupImageBuffer_format_table (tk : Toolkit) (target : ImageBuffer)
    (dataset : DcmDataset) (cs rs bs ps ss : String) (w h b p s : Nat)
    (hc : dataset.columns = some cs) (hr : dataset.rows = some rs)
    (hb : dataset.bitsStored = some bs) (hp : dataset.pixelRepresentation = some ps)
    (hs : dataset.samplesPerPixel = some ss)
    (hw : tk.lexical_cast cs = some w) (hh : tk.lexical_cast rs = some h)
    (hbv : tk.lexical_cast bs = some b) (hpv : tk.lexical_cast ps = some p)
    (hsv : tk.lexical_cast ss = some s) :
    (b = 8 ∧ s = 1 ∧ p = 0 →
      SetupImageBuffer tk target dataset =
        (.returns (), { target with width := w, height := h, format := .Grayscale8 })) ∧
    (b = 8 ∧ s = 3 ∧ p = 0 →
      SetupImageBuffer tk target dataset =
        (.returns (), { target with width := w, height := h, format := .RGB24 })) ∧
    (b = 16 ∧ s = 1 ∧ p = 0 →
      SetupImageBuffer tk target dataset =
        (.returns (), { target with width := w, height := h, format := .Grayscale16 })) ∧
    (b = 16 ∧ s = 1 ∧ p ≠ 0 →
      SetupImageBuffer tk target dataset =
        (.returns (), { target with width := w, height := h, format := .SignedGrayscale16 })) ∧
    (¬ (b = 8 ∧ s = 1 ∧ p = 0) ∧ ¬ (b = 8 ∧ s = 3 ∧ p = 0) ∧ ¬ (b = 16 ∧ s = 1) →
      SetupImageBuffer tk target dataset =
        (.throws (.orthanc .NotImplemented), { target with width := w, height := h })) := by
  refine ⟨?_, ?_, ?_, ?_, ?_⟩
  · rintro ⟨rfl, rfl, rfl⟩
    simp [SetupImageBuffer, hc, hr, hb, hp, hs, hw, hh, hbv, hpv, hsv,
      ImageBuffer.SetHeight, ImageBuffer.SetWidth, ImageBuffer.SetFormat]
  · rintro ⟨rfl, rfl, rfl⟩
    simp [SetupImageBuffer, hc, hr, hb, hp, hs, hw, hh, hbv, hpv, hsv,
      ImageBuffer.SetHeight, ImageBuffer.SetWidth, ImageBuffer.SetFormat]
  · rintro ⟨rfl, rfl, rfl⟩
    simp [SetupImageBuffer, hc, hr, hb, hp, hs, hw, hh, hbv, hpv, hsv,
      ImageBuffer.SetHeight, ImageBuffer.SetWidth, ImageBuffer.SetFormat]
  · rintro ⟨rfl, rfl, hne⟩
    simp [SetupImageBuffer, hc, hr, hb, hp, hs, hw, hh, hbv, hpv, hsv, hne,
      ImageBuffer.SetHeight, ImageBuffer.SetWidth, ImageBuffer.SetFormat]
  · rintro ⟨h1, h2, h3⟩
    simp only [SetupImageBuffer, hc, hr, hb, hp, hs, hw, hh, hbv, hpv, hsv,
      ImageBuffer.SetHeight, ImageBuffer.SetWidth, ImageBuffer.SetFormat]
    by_cases hp0 : p = 0
    · subst hp0
      have h1' : ¬ (b = 8 ∧ s = 1) := fun hx => h1 ⟨hx.1, hx.2, rfl⟩
      have h2' : ¬ (b = 8 ∧ s = 3) := fun hx => h2 ⟨hx.1, hx.2, rfl⟩
      simp [h1', h2', h3]
    · simp [hp0, h3]

/-- Witness of C1: a 512x256 record with BitsStored 16, one sample per pixel
and PixelRepresentation 1 resolves to SignedGrayscale16. -/
theorem SetupImageBuffer_format_table_witness :
    SetupImageBuffer exampleToolkit exampleTarget
      { rle1Dataset [] with columns := some "512", rows := some "256",
                            pixelRepresentation := some "1" }
      = (.returns (), ⟨.SignedGrayscale16, 512, 256, []⟩) :=
  (SetupImageBuffer_format_table exampleToolkit exampleTarget
    { rle1Dataset [] with columns := some "512", rows := some "256",
                          pixelRepresentation := some "1" }
    "512" "256" "16" "1" "1" 512 256 16 1 1
    rfl rfl rfl rfl rfl (by decide) (by decide) (by decide) (by decide) (by decide)).2.2.2.1
    ⟨rfl, rfl, by decide⟩

/-! ### `CopyPixels` -/

/-- C2: the value `CopyPixels<T>` writes for a source value `v` is the
minimum of `T` when `v` is below it, the maximum of `T` when `v` is above
it, and `v` itself otherwise, for `T` among uint8, uint16 and int16; a
source of one sample makes exactly this assignment. For uint8, -5 gives 0,
300 gives 255 and 130 gives 130. -/
theorem CopyPixels_saturates (T : PixelType) (v : Int) (target : ImageBuffer) :
    (v < T.minValue → copyValue T v = T.minValue) ∧
    (T.maxValue < v → copyValue T v = T.maxValue) ∧
    (T.minValue ≤ v ∧ v ≤ T.maxValue → copyValue T v = v) ∧
    CopyPixels T target ⟨1, 1, 1, fun _ _ _ => v⟩ =
      { target with stores := target.stores ++ [⟨0, 0, copyValue T v⟩] } ∧
    copyValue .uint8_t (-5) = 0 ∧ copyValue .uint8_t 300 = 255 ∧
    copyValue .uint8_t 130 = 130 := by
  refine ⟨?_, ?_, ?_, ?_, by decide, by decide, by decide⟩
  · intro h
    simp [copyValue, h]
  · intro h
    have hmm : T.minValue ≤ T.maxValue := by cases T <;> decide
    have h1 : ¬ v < T.minValue := by omega
    simp [copyValue, h, h1]
  · rintro ⟨h1, h2⟩
    have h1' : ¬ v < T.minValue := by omega
    have h2' : ¬ v > T.maxValue := by omega
    simp only [copyValue, h1', h2', if_false]
    cases T <;> simp only [PixelType.minValue, PixelType.maxValue] at h1 h2 <;>
      simp only [PixelType.static_cast] <;> omega
  · rfl


/-! ### The run-length pass of `DecodePsmctRle1` -/

/-- The inner loop of the run-length pass appends `r` copies of `v`. -/
theorem rleRepeat_eq (v : Nat) :
    ∀ (r : Nat) (temp : List Nat), rleRepeat v r temp = temp ++ List.replicate r v
  | 0, temp => by simp [rleRepeat]
  | r + 1, temp => by
    simp [rleRepeat, rleRepeat_eq v r, List.replicate_succ]

/-- A byte other than the marker leaves the completeness of the rest. -/
theorem rleEscapesComplete_cons_ne (b : Nat) (tl : List Nat) (hb : b ≠ 0xa5) :
    rleEscapesComplete (b :: tl) = rleEscapesComplete tl := by
  cases tl with
  | nil => simp [rleEscapesComplete, hb]
  | cons r t => cases t <;> simp [rleEscapesComplete, hb]

/-- A byte other than the marker is copied by the reference expansion. -/
theorem rleReference_cons_ne (b : Nat) (tl : List Nat) (hb : b ≠ 0xa5) :
    rleReference (b :: tl) = (rleReference tl).map (fun e => b :: e) := by
  cases tl with
  | nil => simp [rleReference, hb]
  | cons r t => cases t <;> simp [rleReference, hb]

/-- Invariant of the loop of the run-length pass: from index `i`, with
enough fuel, it appends the reference expansion of `inbuffer[i ..]`. -/
theorem rleLoop_reference (inbuffer : List Nat) :
    ∀ (fuel i : Nat), inbuffer.length - i ≤ fuel →
      rleEscapesComplete (inbuffer.drop i) = true →
      ∃ e, rleReference (inbuffer.drop i) = some e ∧
        ∀ temp, rleLoop inbuffer fuel i temp = .returns (temp ++ e) := by
  intro fuel
  induction fuel with
  | zero =>
    intro i hf _
    have hi : inbuffer.length ≤ i := by omega
    refine ⟨[], ?_, ?_⟩
    · simp [List.drop_eq_nil_of_le hi, rleReference]
    · intro temp
      have : ¬ i < inbuffer.length := by omega
      simp [rleLoop, this]
  | succ fuel ih =>
    intro i hf hc
    by_cases hi : i < inbuffer.length
    · have hget : inbuffer[i]? = some inbuffer[i] := List.getElem?_eq_getElem hi
      have hdrop : inbuffer.drop i = inbuffer[i] :: inbuffer.drop (i + 1) :=
        List.drop_eq_getElem_cons hi
      generalize inbuffer[i] = b at hdrop hget
      generalize hd : inbuffer.drop (i + 1) = tl at hdrop
      rw [hdrop] at hc ⊢
      by_cases hb : b = 0xa5
      · cases tl with
        | nil => simp [rleEscapesComplete, hb] at hc
        | cons r t =>
          cases t with
          | nil => simp [rleEscapesComplete, hb] at hc
          | cons v rest =>
            have h1 : inbuffer[i + 1]? = some r := by
              have := List.getElem?_drop inbuffer (i + 1) 0
              rw [hd] at this
              simpa using this.symm
            have h2 : inbuffer[i + 2]? = some v := by
              have := List.getElem?_drop inbuffer (i + 1) 1
              rw [hd] at this
              simpa [Nat.add_assoc] using this.symm
            have h3 : inbuffer.drop (i + 2 + 1) = rest := by
              have := List.drop_drop 2 (i + 1) inbuffer
              rw [hd] at this
              simpa [Nat.add_assoc] using this.symm
            have hc' : rleEscapesComplete (inbuffer.drop (i + 2 + 1)) = true := by
              rw [h3]
              simpa [rleEscapesComplete, hb] using hc
            obtain ⟨e, he, hloop⟩ := ih (i + 2 + 1) (by omega) hc'
            refine ⟨List.replicate (r + 1) v ++ e, ?_, ?_⟩
            · rw [h3] at he
              simp [rleReference, hb, he]
            · intro temp
              simp [rleLoop, hi, hget, hb, h1, h2, hloop, rleRepeat_eq, List.replicate_succ]
      · have hc' : rleEscapesComplete tl = true := by
          rw [rleEscapesComplete_cons_ne b tl hb] at hc
          exact hc
        obtain ⟨e, he, hloop⟩ := ih (i + 1) (by omega) (by rw [hd]; exact hc')
        refine ⟨b :: e, ?_, ?_⟩
        · rw [hd] at he
          simp [rleReference_cons_ne b tl hb, he]
        · intro temp
          simp [rleLoop, hi, hget, hb, hloop]
    · have hi' : inbuffer.length ≤ i := by omega
      refine ⟨[], ?_, ?_⟩
      · simp [List.drop_eq_nil_of_le hi', rleReference]
      · intro temp
        simp [rleLoop, hi]

/-- The run-length pass returns the reference expansion when the latter is
defined. -/
theorem rlePass_reference (inbuffer : List Nat) (h : rleEscapesComplete inbuffer = true) :
    ∃ e, rleReference inbuffer = some e ∧ rlePass inbuffer = .returns e := by
  obtain ⟨e, he, hloop⟩ :=
    rleLoop_reference inbuffer inbuffer.length 0 (by omega) (by simpa using h)
  refine ⟨e, by simpa using he, ?_⟩
  simpa [rlePass] using hloop []

/-- C3: on an input in which each marker 0xA5 met at the scan position is
followed by at least two bytes, the run-length pass of `DecodePsmctRle1`
returns the reference expansion: each triple `[0xA5, R, V]` becomes `R + 1`
copies of `V`, whatever `R` and `V` are (0xA5 included), every other byte is
copied. `[0xA5, 0x03, 0x07]` expands to four bytes `0x07`. -/
theorem rlePass_eq_reference (inbuffer : List Nat)
    (h : rleEscapesComplete inbuffer = true) :
    (∃ e, rleReference inbuffer = some e ∧ rlePass inbuffer = .returns e) ∧
    (∀ R V : Nat, ∃ e, rlePass inbuffer = .returns e ∧
      rlePass (0xa5 :: R :: V :: inbuffer) = .returns (List.replicate (R + 1) V ++ e)) ∧
    rlePass [0xa5, 0x03, 0x07] = .returns [0x07, 0x07, 0x07, 0x07] := by
  refine ⟨rlePass_reference inbuffer h, ?_, by decide⟩
  intro R V
  obtain ⟨e, he, hp⟩ := rlePass_reference inbuffer h
  obtain ⟨e', he', hp'⟩ := rlePass_reference (0xa5 :: R :: V :: inbuffer)
    (by simpa [rleEscapesComplete] using h)
  refine ⟨e, hp, ?_⟩
  rw [hp']
  simp [rleReference, he] at he'
  rw [← he']

/-- Witness of C3: an input with two runs, the first of three bytes equal to
the marker, the second of one byte, and plain bytes around them. -/
theorem rlePass_eq_reference_witness :
    rleEscapesComplete [1, 0xa5, 2, 0xa5, 0xa5, 0, 7, 4] = true ∧
    rleReference [1, 0xa5, 2, 0xa5, 0xa5, 0, 7, 4] =
      some [1, 0xa5, 0xa5, 0xa5, 7, 4] ∧
    ∃ e, rleReference [1, 0xa5, 2, 0xa5, 0xa5, 0, 7, 4] = some e ∧
      rlePass [1, 0xa5, 2, 0xa5, 0xa5, 0, 7, 4] = .returns e :=
  ⟨by decide, by decide,
    (rlePass_eq_reference [1, 0xa5, 2, 0xa5, 0xa5, 0, 7, 4] (by decide)).1⟩

/-! ### The delta pass of `DecodePsmctRle1` -/

/-- The cast `(int8_t)` of a byte is its reading as a signed 8-bit value. -/
theorem toInt8_eq_signed8 (b : Nat) (hb : b < 256) : toInt8 b = signed8 b := by
  unfold toInt8 signed8
  rw [Nat.mod_eq_of_lt hb]

/-- Adding to a value reduced to 16 bits and reducing, or reducing once. -/
theorem toUint16_add (x y : Int) : toUint16 ((toUint16 x : Int) + y) = toUint16 (x + y) := by
  unfold toUint16
  rw [Int.toNat_of_nonneg (Int.emod_nonneg _ (by norm_num)), Int.emod_add_emod]

/-- The reference output has two bytes per input byte. -/
theorem deltaReference_length : ∀ (l : List Nat) (delta : Nat),
    (deltaReference delta l).length = 2 * l.length
  | [], _ => by simp [deltaReference]
  | b :: rest, delta => by
    simp [deltaReference, deltaReference_length rest]
    omega

/-- Sample `k` of the reference output is `delta` plus the sum of the first
`k + 1` signed bytes, modulo `2^16`. -/
theorem deltaReference_sample : ∀ (l : List Nat) (delta k : Nat), k < l.length →
    (deltaReference delta l)[2 * k]? =
      some (toUint16 ((delta : Int) + signedPrefixSum l k) % 256) ∧
    (deltaReference delta l)[2 * k + 1]? =
      some (toUint16 ((delta : Int) + signedPrefixSum l k) / 256)
  | [], _, _, h => by simp at h
  | b :: rest, delta, 0, _ => by
    simp [deltaReference, signedPrefixSum, toUint16]
  | b :: rest, delta, k + 1, h => by
    have hk : k < rest.length := by simpa using h
    have ih := deltaReference_sample rest (toUint16 ((delta : Int) + signed8 b)) k hk
    have e1 : 2 * (k + 1) = 2 * k + 1 + 1 := by omega
    have hs : signedPrefixSum (b :: rest) (k + 1) = signed8 b + signedPrefixSum rest k := by
      simp [signedPrefixSum]
    rw [e1, hs, ← Int.add_assoc, ← toUint16_add]
    simpa [deltaReference, toUint16] using ih

/-- Invariant of the loop of the delta pass on a buffer of bytes without
escape: from index `i`, with enough fuel, it appends the reference output
for `temp[i ..]`. -/
theorem deltaLoop_reference (temp : List Nat) (hbyte : ∀ x ∈ temp, x < 256)
    (hno : ∀ x ∈ temp, x ≠ 0x5a) :
    ∀ (fuel i delta : Nat) (output : List Nat), temp.length - i ≤ fuel →
      deltaLoop temp fuel i delta output =
        .returns (output ++ deltaReference delta (temp.drop i)) := by
  intro fuel
  induction fuel with
  | zero =>
    intro i delta output hf
    have hi : temp.length ≤ i := by omega
    have hn : ¬ i < temp.length := by omega
    simp [deltaLoop, hn, List.drop_eq_nil_of_le hi, deltaReference]
  | succ fuel ih =>
    intro i delta output hf
    by_cases hi : i < temp.length
    · have hget : temp[i]? = some temp[i] := List.getElem?_eq_getElem hi
      have hmem : temp[i] ∈ temp := List.getElem_mem hi
      have hb := hbyte _ hmem
      have hne := hno _ hmem
      rw [List.drop_eq_getElem_cons hi]
      generalize temp[i] = b at hget hb hne
      simp only [deltaLoop, hi, if_true, deltaStep, hget, hne, if_false]
      rw [ih (i + 1) _ _ (by omega), toInt8_eq_signed8 b hb]
      simp [deltaReference, toUint16]
    · have hi' : temp.length ≤ i := by omega
      simp [deltaLoop, hi, List.drop_eq_nil_of_le hi', deltaReference]

/-- C4: on an intermediate buffer `temp` of `n` bytes, none equal to 0x5A,
the delta pass of `DecodePsmctRle1` returns `2n` bytes, and for every
`k < n` bytes `2k` and `2k + 1` are the low and the high byte of the sum of
`temp[0], ..., temp[k]` read as signed 8-bit values, modulo `2^16`.
`[0x05, 0xFE]` gives `05 00 03 00`. -/
theorem deltaPass_without_escape (temp : List Nat) (hbyte : ∀ x ∈ temp, x < 256)
    (hno : ∀ x ∈ temp, x ≠ 0x5a) :
    (∃ out, deltaPass temp = .returns out ∧ out.length = 2 * temp.length ∧
      ∀ k, k < temp.length →
        out[2 * k]? = some ((signedPrefixSum temp k % 65536).toNat % 256) ∧
        out[2 * k + 1]? = some ((signedPrefixSum temp k % 65536).toNat / 256)) ∧
    deltaPass [0x05, 0xFE] = .returns [0x05, 0x00, 0x03, 0x00] := by
  refine ⟨⟨deltaReference 0 temp, ?_, deltaReference_length temp 0, ?_⟩, by decide⟩
  · have := deltaLoop_reference temp hbyte hno temp.length 0 0 [] (by omega)
    simpa [deltaPass] using this
  · intro k hk
    have := deltaReference_sample temp 0 k hk
    simpa [toUint16] using this

/-- Witness of C4: four bytes whose running sum passes below zero and wraps
around `2^16`. -/
theorem deltaPass_without_escape_witness :
    (∃ out, deltaPass [0x05, 0xFE, 0x80, 0x7F] = .returns out ∧
      out.length = 2 * [0x05, 0xFE, 0x80, 0x7F].length ∧
      ∀ k, k < [0x05, 0xFE, 0x80, 0x7F].length →
        out[2 * k]? =
          some ((signedPrefixSum [0x05, 0xFE, 0x80, 0x7F] k % 65536).toNat % 256) ∧
        out[2 * k + 1]? =
          some ((signedPrefixSum [0x05, 0xFE, 0x80, 0x7F] k % 65536).toNat / 256)) ∧
    deltaPass [0x05, 0xFE, 0x80, 0x7F] =
      .returns [0x05, 0x00, 0x03, 0x00, 0x83, 0xFF, 0x02, 0x00] :=
  ⟨(deltaPass_without_escape [0x05, 0xFE, 0x80, 0x7F] (by decide) (by decide)).1, by decide⟩

/-- C5: in the delta pass of `DecodePsmctRle1`, a triple `[0x5A, lo, hi]` at
the scan position `i` gives, whatever `delta` is, exactly one sample
`hi * 256 + lo` (the two bytes `lo`, `hi` appended to the output), moves the
scan to `i + 3` and leaves `delta = hi * 256 + lo`, so that a following byte
`d` other than 0x5A gives the sample `(hi * 256 + lo + signed8 d) mod 2^16`.
`[0x5A, 0x10, 0x20]` gives the sample 0x2010 and leaves `delta = 0x2010`. -/
theorem deltaPass_escape (temp : List Nat) (i delta lo hi : Nat) (output : List Nat)
    (hm : temp[i]? = some 0x5a) (hlo : temp[i + 1]? = some lo)
    (hhi : temp[i + 2]? = some hi) (hlo8 : lo < 256) (hhi8 : hi < 256) :
    deltaStep temp i delta output = .returns (i + 3, hi * 256 + lo, output ++ [lo, hi]) ∧
    (∀ fuel, deltaLoop temp (fuel + 1) i delta output =
      deltaLoop temp fuel (i + 3) (hi * 256 + lo) (output ++ [lo, hi])) ∧
    (∀ d, temp[i + 3]? = some d → d ≠ 0x5a → d < 256 →
      deltaStep temp (i + 3) (hi * 256 + lo) (output ++ [lo, hi]) =
        .returns (i + 4, ((((hi * 256 + lo : Nat) : Int) + signed8 d) % 65536).toNat,
          output ++ [lo, hi] ++
            [((((hi * 256 + lo : Nat) : Int) + signed8 d) % 65536).toNat % 256,
             ((((hi * 256 + lo : Nat) : Int) + signed8 d) % 65536).toNat / 256])) ∧
    deltaStep [0x5A, 0x10, 0x20] 0 0 [] = .returns (3, 0x2010, [0x10, 0x20]) ∧
    deltaPass [0x5A, 0x10, 0x20] = .returns [0x10, 0x20] := by
  have hlen : i < temp.length := by
    rcases List.getElem?_eq_some.mp hm with ⟨h, _⟩
    exact h
  have hv : toUint16 ((hi : Int) * 256 + lo) = hi * 256 + lo := by
    unfold toUint16
    omega
  have hstep : deltaStep temp i delta output =
      .returns (i + 3, hi * 256 + lo, output ++ [lo, hi]) := by
    have h1 : (hi * 256 + lo) % 256 = lo := by omega
    have h2 : (hi * 256 + lo) / 256 = hi := by omega
    simp [deltaStep, hm, hlo, hhi, hv, h1, h2]
  refine ⟨hstep, ?_, ?_, by decide, by decide⟩
  · intro fuel
    simp [deltaLoop, hlen, hstep]
  · intro d hd hne hd8
    have hs : toUint16 (((hi * 256 + lo : Nat) : Int) + toInt8 d) =
        ((((hi * 256 + lo : Nat) : Int) + signed8 d) % 65536).toNat := by
      rw [toInt8_eq_signed8 d hd8]
      rfl
    simp only [deltaStep, hd, hne, if_false, hs]

/-- Witness of C5: an escape in the middle of a buffer, after a delta and
before another one. -/
theorem deltaPass_escape_witness :
    deltaStep [0x01, 0x5A, 0x10, 0x20, 0xFF] 1 1 [0x01, 0x00] =
      .returns (4, 0x2010, [0x01, 0x00, 0x10, 0x20]) ∧
    deltaPass [0x01, 0x5A, 0x10, 0x20, 0xFF] =
      .returns [0x01, 0x00, 0x10, 0x20, 0x0F, 0x20] :=
  ⟨(deltaPass_escape [0x01, 0x5A, 0x10, 0x20, 0xFF] 1 1 0x10 0x20 [0x01, 0x00]
      (by decide) (by decide) (by decide) (by decide) (by decide)).1, by decide⟩

/-! ### The end of `DecodePsmctRle1` -/

/-- The final trimming leaves an even number of bytes. -/
theorem trimOdd_length_even (output : List Nat) : (trimOdd output).length % 2 = 0 := by
  unfold trimOdd
  split
  · rw [List.length_take]
    omega
  · omega

/-- The final trimming of a sequence of odd length removes its last byte. -/
theorem trimOdd_append_last (l : List Nat) (last : Nat)
    (h : (l ++ [last]).length % 2 = 1) : trimOdd (l ++ [last]) = l := by
  unfold trimOdd
  have hne : (l ++ [last]).length % 2 ≠ 0 := by omega
  rw [if_pos hne]
  simp

/-- C6: when `DecodePsmctRle1` returns true, its output has even length; it
is the sequence `built` by the delta pass, less its last byte and nothing
else if `built` has odd length, and `built` itself otherwise. The trimming
step removes exactly the last byte of any sequence of odd length. -/
theorem DecodePsmctRle1_even_length (output : List Nat) (dataset : DcmDataset)
    (out : List Nat) (h : DecodePsmctRle1 output dataset = .returns (true, out)) :
    out.length % 2 = 0 ∧
    (∃ e inbuffer temp built, dataset.content = some e ∧
      e.getUint8Array = some inbuffer ∧ rlePass inbuffer = .returns temp ∧
      deltaPass temp = .returns built ∧
      (built.length % 2 = 1 → ∃ last, built = out ++ [last]) ∧
      (built.length % 2 = 0 → out = built)) ∧
    (∀ (l : List Nat) (last : Nat), (l ++ [last]).length % 2 = 1 →
      trimOdd (l ++ [last]) = l) := by
  unfold DecodePsmctRle1 at h
  split at h
  · simp at h
  · split at h
    · simp at h
    · rename_i e he
      split at h
      · simp at h
      · rename_i inbuffer hin
        split at h
        · rename_i temp ht
          split at h
          · rename_i built hbuilt
            simp only [Run.returns.injEq, Prod.mk.injEq, true_and] at h
            subst h
            refine ⟨trimOdd_length_even built, ⟨e, inbuffer, temp, built, he, hin, ht, hbuilt, ?_, ?_⟩,
              trimOdd_append_last⟩
            · intro hodd
              have hne : built ≠ [] := by
                intro hnil
                simp [hnil] at hodd
              refine ⟨built.getLast hne, ?_⟩
              have hsplit : built = built.dropLast ++ [built.getLast hne] :=
                (List.dropLast_append_getLast hne).symm
              have hodd' :
                  (built.dropLast ++ [built.getLast hne]).length % 2 = 1 := by
                rw [← hsplit]
                exact hodd
              have := trimOdd_append_last built.dropLast (built.getLast hne) hodd'
              rw [← hsplit] at this
              rw [this]
              exact hsplit
            · intro heven
              simp [trimOdd, heven]
          all_goals simp at h
        all_goals simp at h

/-- Witness of C6: the decoding of a content of four bytes returns true with
six bytes. -/
theorem DecodePsmctRle1_even_length_witness :
    DecodePsmctRle1 [] (rle1Dataset [0x5A, 0x10, 0x20, 0x05]) =
      .returns (true, [0x10, 0x20, 0x15, 0x20]) ∧
    [0x10, 0x20, 0x15, 0x20].length % 2 = 0 :=
  ⟨by decide,
    (DecodePsmctRle1_even_length [] (rle1Dataset [0x5A, 0x10, 0x20, 0x05])
      [0x10, 0x20, 0x15, 0x20] (by decide)).1⟩

/-! ### Escapes at the end of a buffer -/

/-- C7: on a private content of two bytes with the marker 0xA5 in one of
them, the run-length pass of `DecodePsmctRle1` does not fail: it reads
`inbuffer[i + 2]` at an index that is not below the length (3, resp. 2, for a
length of 2), and `Decode` reports nothing either. -/
theorem DecodePsmctRle1_rle_escape_at_end :
    DecodePsmctRle1 [] (rle1Dataset [0x00, 0xA5]) = .outOfRangeRead 3 2 ∧
    DecodePsmctRle1 [] (rle1Dataset [0xA5, 0x03]) = .outOfRangeRead 2 2 ∧
    Decode exampleToolkit exampleTarget (rle1Dataset [0x00, 0xA5]) 0 =
      (.outOfRangeRead 3 2, exampleTarget) := by
  refine ⟨by decide, by decide, by decide⟩

/-- C8: on an intermediate buffer of two bytes with the marker 0x5A in one
of them, the delta pass of `DecodePsmctRle1` does not fail: it reads
`temp[i + 2]`, resp. `temp[i + 1]`, at index 2 of a buffer of size 2, and
`Decode` reports nothing either. -/
theorem DecodePsmctRle1_delta_escape_at_end :
    rlePass [0x5A, 0x10] = .returns [0x5A, 0x10] ∧
    DecodePsmctRle1 [] (rle1Dataset [0x5A, 0x10]) = .outOfRangeRead 2 2 ∧
    rlePass [0x00, 0x5A] = .returns [0x00, 0x5A] ∧
    DecodePsmctRle1 [] (rle1Dataset [0x00, 0x5A]) = .outOfRangeRead 2 2 ∧
    Decode exampleToolkit exampleTarget (rle1Dataset [0x5A, 0x10]) 0 =
      (.outOfRangeRead 2 2, exampleTarget) := by
  refine ⟨by decide, by decide, by decide, by decide, by decide⟩

/-! ### `Decode` -/

/-- Without fuel shortage: `DecodePsmctRle1` returns false when the dataset
is not in the PMSCT_RLE1 encoding. -/
theorem DecodePsmctRle1_not_applicable (output : List Nat) (dataset : DcmDataset)
    (h : IsPsmctRle1 dataset = false) :
    DecodePsmctRle1 output dataset = .returns (false, output) := by
  simp [DecodePsmctRle1, h]

/-- C9: for a dataset with an uncompressed transfer syntax and no native
pixel data: if it has the compression type "PMSCT_RLE1", `DecodePsmctRle1`
returns true with `privateContent`, the accessor built on `privateContent`
selects the frame, `SetupImageBuffer` resolves the format and the accessor
has the channel count the format requires, then `Decode` returns true and
the target holds the copy of the samples of this accessor; if the dataset
is not in the PMSCT_RLE1 encoding, or has no readable private content,
`Decode` throws BadFileFormat. -/
theorem Decode_uncompressed_without_pixel_data (tk : Toolkit) (target : ImageBuffer)
    (dataset : DcmDataset) (frame : Nat)
    (hu : IsUncompressedImage dataset = true) (hpd : dataset.pixelData = none) :
    (∀ (privateContent : List Nat) (source0 source : DicomIntegerPixelAccessor)
        (sized : ImageBuffer),
      IsPsmctRle1 dataset = true →
      DecodePsmctRle1 [] dataset = .returns (true, privateContent) →
      tk.newAccessor dataset privateContent = .ok source0 →
      tk.SetCurrentFrame source0 frame = .ok source →
      SetupImageBuffer tk target dataset = (.returns (), sized) →
      source.channelCount = requiredChannelCount sized.format →
      Decode tk target dataset frame =
        (.returns true, CopyPixels (copyTypeOf sized.format) sized source)) ∧
    (IsPsmctRle1 dataset = false ∨ dataset.content = none ∨
        (∃ e, dataset.content = some e ∧ e.getUint8Array = none) →
      Decode tk target dataset frame = (.throws (.orthanc .BadFileFormat), target)) := by
  constructor
  · intro privateContent source0 source sized _ hdec hacc hframe hsetup hchan
    have hsrc : pixelSource tk dataset = .returns (some source0) := by
      simp [pixelSource, hpd, hdec, hacc]
    cases hfmt : sized.format <;> rw [hfmt] at hchan <;>
      simp [Decode, hu, DecodeUncompressedImage, DecodeUncompressedImageInternal, hsrc,
        hframe, hsetup, hfmt, hchan, requiredChannelCount, copyTypeOf, Run.map]
  · intro hnone
    have hdec : ∃ o, DecodePsmctRle1 [] dataset = .returns (false, o) := by
      rcases hnone with h | h | ⟨e, he, hb⟩
      · exact ⟨[], DecodePsmctRle1_not_applicable [] dataset h⟩
      · refine ⟨[], ?_⟩
        simp only [DecodePsmctRle1, h]
        split <;> rfl
      · refine ⟨[], ?_⟩
        simp only [DecodePsmctRle1, he, hb]
        split <;> rfl
    obtain ⟨o, ho⟩ := hdec
    have hsrc : pixelSource tk dataset = .returns none := by
      simp [pixelSource, hpd, ho]
    simp [Decode, hu, DecodeUncompressedImage, DecodeUncompressedImageInternal, hsrc, Run.map]

/-- Witness of C9: a 2x1 image of 16 bits in the PMSCT_RLE1 encoding is
decoded into the two samples 0x2010 and 0x2015; the same dataset without
the compression type is refused with BadFileFormat. -/
theorem Decode_uncompressed_without_pixel_data_witness :
    Decode exampleToolkit exampleTarget (rle1Dataset [0x5A, 0x10, 0x20, 0x05]) 0 =
      (.returns true, ⟨.Grayscale16, 2, 1, [⟨0, 0, 0x2010⟩, ⟨0, 1, 0x2015⟩]⟩) ∧
    Decode exampleToolkit exampleTarget
        { rle1Dataset [0x5A, 0x10, 0x20, 0x05] with compressionType := none } 0 =
      (.throws (.orthanc .BadFileFormat), exampleTarget) :=
  ⟨by
    have h := (Decode_uncompressed_without_pixel_data exampleToolkit exampleTarget
      (rle1Dataset [0x5A, 0x10, 0x20, 0x05]) 0 (by decide) rfl).1
      [0x10, 0x20, 0x15, 0x20]
      ⟨2, 1, 1, fun x _ _ =>
        (([0x10, 0x20, 0x15, 0x20].getD (2 * x) 0 +
          256 * [0x10, 0x20, 0x15, 0x20].getD (2 * x + 1) 0 : Nat) : Int)⟩
      ⟨2, 1, 1, fun x _ _ =>
        (([0x10, 0x20, 0x15, 0x20].getD (2 * x) 0 +
          256 * [0x10, 0x20, 0x15, 0x20].getD (2 * x + 1) 0 : Nat) : Int)⟩
      ⟨.Grayscale16, 2, 1, []⟩
      (by decide) (by decide) rfl rfl (by decide) rfl
    rw [h]
    decide,
   (Decode_uncompressed_without_pixel_data exampleToolkit exampleTarget
      { rle1Dataset [0x5A, 0x10, 0x20, 0x05] with compressionType := none } 0
      (by decide) rfl).2 (Or.inl (by decide))⟩

/-- C10: when the transfer syntax is neither uncompressed nor JPEG-LS and
the explicit little-endian representation of the converted dataset cannot
be written, `Decode` returns false without throwing and leaves the target
as it was: no pixel is copied. -/
theorem Decode_unreachable_fallback (tk : Toolkit) (target : ImageBuffer)
    (dataset : DcmDataset) (frame : Nat)
    (hu : IsUncompressedImage dataset = false) (hj : IsJpegLossless dataset = false)
    (hw : tk.canWriteXfer (tk.chooseRepresentation dataset) = false) :
    Decode tk target dataset frame = (.returns false, target) := by
  simp [Decode, hu, hj, hw]

/-- Witness of C10: a dataset in another transfer syntax, with a toolkit
that cannot write the explicit little-endian representation. -/
theorem Decode_unreachable_fallback_witness :
    Decode exampleToolkit exampleTarget
        { rle1Dataset [] with originalXfer := .EXS_Other 4 } 0 =
      (.returns false, exampleTarget) :=
  Decode_unreachable_fallback exampleToolkit exampleTarget
    { rle1Dataset [] with originalXfer := .EXS_Other 4 } 0
    (by decide) (by decide) rfl

/-! ### The fuel of the loops suffices -/

/-- With fuel for the bytes left, the loop of the run-length pass does not
run out of fuel. -/
theorem rleLoop_fuel (inbuffer : List Nat) :
    ∀ (fuel i : Nat) (temp : List Nat), inbuffer.length - i ≤ fuel →
      rleLoop inbuffer fuel i temp ≠ .outOfFuel := by
  intro fuel
  induction fuel with
  | zero =>
    intro i temp hf
    have hn : ¬ i < inbuffer.length := by omega
    simp [rleLoop, hn]
  | succ fuel ih =>
    intro i temp hf
    unfold rleLoop
    repeat' split
    all_goals first
      | exact ih _ _ (by omega)
      | simp

/-- With fuel for the bytes left, the loop of the delta pass does not run
out of fuel. -/
theorem deltaLoop_fuel (temp : List Nat) :
    ∀ (fuel i delta : Nat) (output : List Nat), temp.length - i ≤ fuel →
      deltaLoop temp fuel i delta output ≠ .outOfFuel := by
  intro fuel
  induction fuel with
  | zero =>
    intro i delta output hf
    have hn : ¬ i < temp.length := by omega
    simp [deltaLoop, hn]
  | succ fuel ih =>
    intro i delta output hf
    unfold deltaLoop
    split
    · rename_i hi
      split
      · rename_i i' delta' output' hstep
        have hi' : i < i' := by
          unfold deltaStep at hstep
          repeat' split at hstep
          all_goals simp at hstep
          all_goals omega
        exact ih _ _ _ (by omega)
      · simp
      · simp
      · rename_i hstep
        unfold deltaStep at hstep
        repeat' split at hstep
        all_goals simp at hstep
    · simp

/-- The run-length pass does not run out of fuel. -/
theorem rlePass_fuel (inbuffer : List Nat) : rlePass inbuffer ≠ .outOfFuel :=
  rleLoop_fuel inbuffer inbuffer.length 0 [] (by omega)

/-- The delta pass does not run out of fuel. -/
theorem deltaPass_fuel (temp : List Nat) : deltaPass temp ≠ .outOfFuel :=
  deltaLoop_fuel temp temp.length 0 0 [] (by omega)

/-- The model of `DecodePsmctRle1` never runs out of fuel: it returns, or
reads outside a buffer. -/
theorem DecodePsmctRle1_fuel (output : List Nat) (dataset : DcmDataset) :
    DecodePsmctRle1 output dataset ≠ .outOfFuel := by
  unfold DecodePsmctRle1
  repeat' split
  all_goals first
    | (rename_i h; exact absurd h (rlePass_fuel _))
    | (rename_i h; exact absurd h (deltaPass_fuel _))
    | simp

/-! ### `SetupImageBuffer` on missing and unparsable attributes -/

/-- C11, as stated, fails: in a record lacking Rows whose Columns is "abc",
`SetupImageBuffer` meets the unparsable Columns before it looks Rows up and
throws `boost::bad_lexical_cast`, not BadFileFormat. -/
theorem SetupImageBuffer_missing_rows_unparsable_columns :
    ({ rle1Dataset [] with columns := some "abc", rows := none } : DcmDataset).rows = none ∧
    SetupImageBuffer exampleToolkit exampleTarget
        { rle1Dataset [] with columns := some "abc", rows := none } =
      (.throws .bad_lexical_cast, exampleTarget) ∧
    (SetupImageBuffer exampleToolkit exampleTarget
        { rle1Dataset [] with columns := some "abc", rows := none }).1 ≠
      .throws (.orthanc .BadFileFormat) := by
  refine ⟨rfl, by decide, by decide⟩

/-- C11, amended: `SetupImageBuffer` throws BadFileFormat, leaving the target
as it was, for a record lacking Columns, and for a record lacking Rows,
BitsStored or PixelRepresentation in which the attributes read before the
missing one are present and parse; and a record lacking SamplesPerPixel is
resolved exactly as the same record with a SamplesPerPixel that parses to 1. -/
theorem SetupImageBuffer_missing_attribute (tk : Toolkit) (target : ImageBuffer)
    (dataset : DcmDataset) :
    (dataset.columns = none →
      SetupImageBuffer tk target dataset = (.throws (.orthanc .BadFileFormat), target)) ∧
    (∀ cs w, dataset.columns = some cs → tk.lexical_cast cs = some w →
      dataset.rows = none →
      SetupImageBuffer tk target dataset = (.throws (.orthanc .BadFileFormat), target)) ∧
    (∀ cs w rs h, dataset.columns = some cs → tk.lexical_cast cs = some w →
      dataset.rows = some rs → tk.lexical_cast rs = some h →
      dataset.bitsStored = none →
      SetupImageBuffer tk target dataset = (.throws (.orthanc .BadFileFormat), target)) ∧
    (∀ cs w rs h bs b, dataset.columns = some cs → tk.lexical_cast cs = some w →
      dataset.rows = some rs → tk.lexical_cast rs = some h →
      dataset.bitsStored = some bs → tk.lexical_cast bs = some b →
      dataset.pixelRepresentation = none →
      SetupImageBuffer tk target dataset = (.throws (.orthanc .BadFileFormat), target)) ∧
    (∀ one, tk.lexical_cast one = some 1 →
      SetupImageBuffer tk target { dataset with samplesPerPixel := none } =
        SetupImageBuffer tk target { dataset with samplesPerPixel := some one }) := by
  refine ⟨?_, ?_, ?_, ?_, ?_⟩
  · intro hc
    simp [SetupImageBuffer, hc]
  · intro cs w hc hw hr
    simp [SetupImageBuffer, hc, hw, hr]
  · intro cs w rs h hc hw hr hh hb
    simp [SetupImageBuffer, hc, hw, hr, hh, hb]
  · intro cs w rs h bs b hc hw hr hh hb hbv hp
    simp [SetupImageBuffer, hc, hw, hr, hh, hb, hbv, hp]
  · intro one hone
    simp only [SetupImageBuffer, hone]

/-- Witness of C11: a record without BitsStored is refused with
BadFileFormat, and a 16-bit record without SamplesPerPixel resolves to
Grayscale16 as with SamplesPerPixel "1". -/
theorem SetupImageBuffer_missing_attribute_witness :
    SetupImageBuffer exampleToolkit exampleTarget
        { rle1Dataset [] with bitsStored := none } =
      (.throws (.orthanc .BadFileFormat), exampleTarget) ∧
    SetupImageBuffer exampleToolkit exampleTarget
        { rle1Dataset [] with samplesPerPixel := none } =
      (.returns (), ⟨.Grayscale16, 2, 1, []⟩) :=
  ⟨(SetupImageBuffer_missing_attribute exampleToolkit exampleTarget
      { rle1Dataset [] with bitsStored := none }).2.2.1 "2" 2 "1" 1
      rfl (by decide) rfl (by decide) rfl,
   ((SetupImageBuffer_missing_attribute exampleToolkit exampleTarget
      (rle1Dataset [])).2.2.2.2 "1" (by decide)).trans (by decide)⟩

/-- C12, as stated, fails: in a record with the five attributes present and
Columns equal to "abc", `SetupImageBuffer` throws `boost::bad_lexical_cast`,
which is not an `OrthancException` with BadFileFormat. -/
theorem SetupImageBuffer_unparsable_columns :
    exampleToolkit.lexical_cast "abc" = none ∧
    SetupImageBuffer exampleToolkit exampleTarget
        { rle1Dataset [] with columns := some "abc" } =
      (.throws .bad_lexical_cast, exampleTarget) ∧
    (SetupImageBuffer exampleToolkit exampleTarget
        { rle1Dataset [] with columns := some "abc" }).1 ≠
      .throws (.orthanc .BadFileFormat) := by
  refine ⟨by decide, by decide, by decide⟩

/-- C12, amended: when Columns, Rows, BitsStored, PixelRepresentation or a
present SamplesPerPixel has a value that `boost::lexical_cast` does not
parse, `SetupImageBuffer` fails and leaves the target as it was; the failure
is `boost::bad_lexical_cast`, or BadFileFormat for a required attribute
missing before the unparsable value is read, and never NotImplemented; it is
`boost::bad_lexical_cast` when the four required attributes are present. -/
theorem SetupImageBuffer_unparsable_value (tk : Toolkit) (target : ImageBuffer)
    (dataset : DcmDataset) (s : String)
    (hs : dataset.columns = some s ∨ dataset.rows = some s ∨
      dataset.bitsStored = some s ∨ dataset.pixelRepresentation = some s ∨
      dataset.samplesPerPixel = some s)
    (hbad : tk.lexical_cast s = none) :
    (SetupImageBuffer tk target dataset = (.throws .bad_lexical_cast, target) ∨
      SetupImageBuffer tk target dataset = (.throws (.orthanc .BadFileFormat), target)) ∧
    (dataset.columns ≠ none ∧ dataset.rows ≠ none ∧ dataset.bitsStored ≠ none ∧
        dataset.pixelRepresentation ≠ none →
      SetupImageBuffer tk target dataset = (.throws .bad_lexical_cast, target)) := by
  have key : ∀ (o : Option String), o = some s → (o.bind tk.lexical_cast) = none := by
    intro o ho
    simp [ho, hbad]
  cases hc : dataset.columns with
  | none => simp [SetupImageBuffer, hc]
  | some cs =>
    cases hw : tk.lexical_cast cs with
    | none => simp [SetupImageBuffer, hc, hw]
    | some w =>
      cases hr : dataset.rows with
      | none => simp [SetupImageBuffer, hc, hw, hr]
      | some rs =>
        cases hh : tk.lexical_cast rs with
        | none => simp [SetupImageBuffer, hc, hw, hr, hh]
        | some h =>
          cases hb : dataset.bitsStored with
          | none => simp [SetupImageBuffer, hc, hw, hr, hh, hb]
          | some bs =>
            cases hbv : tk.lexical_cast bs with
            | none => simp [SetupImageBuffer, hc, hw, hr, hh, hb, hbv]
            | some b =>
              cases hp : dataset.pixelRepresentation with
              | none => simp [SetupImageBuffer, hc, hw, hr, hh, hb, hbv, hp]
              | some ps =>
                cases hpv : tk.lexical_cast ps with
                | none => simp [SetupImageBuffer, hc, hw, hr, hh, hb, hbv, hp, hpv]
                | some p =>
                  have hfour : ¬ (dataset.columns = some s ∨ dataset.rows = some s ∨
                      dataset.bitsStored = some s ∨ dataset.pixelRepresentation = some s) := by
                    rintro (h1 | h1 | h1 | h1)
                    · have := key _ h1; simp [hc, hw] at this
                    · have := key _ h1; simp [hr, hh] at this
                    · have := key _ h1; simp [hb, hbv] at this
                    · have := key _ h1; simp [hp, hpv] at this
                  have hss : dataset.samplesPerPixel = some s := by
                    rcases hs with h1 | h1 | h1 | h1 | h1
                    · exact absurd (Or.inl h1) hfour
                    · exact absurd (Or.inr (Or.inl h1)) hfour
                    · exact absurd (Or.inr (Or.inr (Or.inl h1))) hfour
                    · exact absurd (Or.inr (Or.inr (Or.inr h1))) hfour
                    · exact h1
                  simp [SetupImageBuffer, hc, hw, hr, hh, hb, hbv, hp, hpv, hss, hbad]

/-- Witness of C12: a record whose SamplesPerPixel is "one". -/
theorem SetupImageBuffer_unparsable_value_witness :
    SetupImageBuffer exampleToolkit exampleTarget
        { rle1Dataset [] with samplesPerPixel := some "one" } =
      (.throws .bad_lexical_cast, exampleTarget) :=
  (SetupImageBuffer_unparsable_value exampleToolkit exampleTarget
    { rle1Dataset [] with samplesPerPixel := some "one" } "one"
    (Or.inr (Or.inr (Or.inr (Or.inr rfl)))) (by decide)).2
    ⟨by decide, by decide, by decide, by decide⟩

/-! ### Classification of the transfer syntax -/

/-- C13: `IsUncompressedImage` and `IsJpegLossless` depend on the transfer
syntax alone; the first holds exactly for Unknown, LittleEndianImplicit,
BigEndianImplicit, LittleEndianExplicit and BigEndianExplicit, the second
exactly for JPEGLSLossless and JPEGLSLossy; they never hold together; and
when both are false `Decode` takes the fallback path: it decodes the
converted clone with `DecodeUncompressedImageInternal` if the explicit
little-endian representation can be written, and returns false otherwise. -/
theorem transfer_syntax_classification (tk : Toolkit) (target : ImageBuffer)
    (dataset : DcmDataset) (frame : Nat) :
    (IsUncompressedImage dataset = true ↔
      dataset.originalXfer = .EXS_Unknown ∨
      dataset.originalXfer = .EXS_LittleEndianImplicit ∨
      dataset.originalXfer = .EXS_BigEndianImplicit ∨
      dataset.originalXfer = .EXS_LittleEndianExplicit ∨
      dataset.originalXfer = .EXS_BigEndianExplicit) ∧
    (IsJpegLossless dataset = true ↔
      dataset.originalXfer = .EXS_JPEGLSLossless ∨
      dataset.originalXfer = .EXS_JPEGLSLossy) ∧
    (∀ other : DcmDataset, other.originalXfer = dataset.originalXfer →
      IsUncompressedImage other = IsUncompressedImage dataset ∧
      IsJpegLossless other = IsJpegLossless dataset) ∧
    ¬ (IsUncompressedImage dataset = true ∧ IsJpegLossless dataset = true) ∧
    (IsUncompressedImage dataset = false ∧ IsJpegLossless dataset = false →
      Decode tk target dataset frame =
        if tk.canWriteXfer (tk.chooseRepresentation dataset) then
          ((DecodeUncompressedImageInternal tk target
              (tk.chooseRepresentation dataset) frame).1.map (fun _ => true),
            (DecodeUncompressedImageInternal tk target
              (tk.chooseRepresentation dataset) frame).2)
        else (.returns false, target)) := by
  refine ⟨?_, ?_, ?_, ?_, ?_⟩
  · simp [IsUncompressedImage, or_assoc]
  · simp [IsJpegLossless]
  · intro other h
    simp [IsUncompressedImage, IsJpegLossless, h]
  · cases hx : dataset.originalXfer <;> simp [IsUncompressedImage, IsJpegLossless, hx]
  · rintro ⟨hu, hj⟩
    simp [Decode, hu, hj]

/-- Witness of C13: a dataset in another transfer syntax is in neither
class, and `Decode` returns false with a toolkit that cannot transcode. -/
theorem transfer_syntax_classification_witness :
    IsUncompressedImage { rle1Dataset [] with originalXfer := .EXS_Other 4 } = false ∧
    IsJpegLossless { rle1Dataset [] with originalXfer := .EXS_Other 4 } = false ∧
    Decode exampleToolkit exampleTarget
        { rle1Dataset [] with originalXfer := .EXS_Other 4 } 1 =
      (.returns false, exampleTarget) :=
  ⟨by decide, by decide,
    ((transfer_syntax_classification exampleToolkit exampleTarget
      { rle1Dataset [] with originalXfer := .EXS_Other 4 } 1).2.2.2.2
      ⟨by decide, by decide⟩).trans (by decide)⟩

/-! ### Placement of the pixels by `CopyPixels` -/

/-- The loop over `m` channels from the pointer `p`: one assignment per
channel, at consecutive indices. -/
theorem copyChannels_loop (T : PixelType) (source : DicomIntegerPixelAccessor) (x y : Nat) :
    ∀ (m p : Nat) (t : ImageBuffer),
      (List.range m).foldl
        (fun (st : Nat × ImageBuffer) c =>
          (st.1 + 1,
           { st.2 with
             stores := st.2.stores ++ [⟨y, st.1, copyValue T (source.GetValue x y c)⟩] }))
        (p, t) =
      (p + m, { t with stores := t.stores ++
        (List.range m).map (fun c => ⟨y, p + c, copyValue T (source.GetValue x y c)⟩) }) := by
  intro m
  induction m with
  | zero => intro p t; simp
  | succ m ih =>
    intro p t
    rw [List.range_succ, List.foldl_append, ih]
    simp [List.map_append, Nat.add_assoc]

/-- The loop over `m` pixels of a row: the assignments of the specification
for these pixels, the pointer ending at `m * n`. -/
theorem copyRow_loop (T : PixelType) (source : DicomIntegerPixelAccessor) (y : Nat) :
    ∀ (m : Nat) (t : ImageBuffer),
      (List.range m).foldl (fun st x => copyChannels T source x y st) (0, t) =
      (m * source.channelCount,
        { t with stores := t.stores ++ (List.range m).flatMap (pixelStoresSpec T source y) }) := by
  intro m
  induction m with
  | zero => intro t; simp
  | succ m ih =>
    intro t
    rw [List.range_succ, List.foldl_append, ih]
    simp only [List.foldl_cons, List.foldl_nil, copyChannels]
    rw [copyChannels_loop]
    simp [List.flatMap_append, Nat.succ_mul, pixelStoresSpec]

/-- The loop over `m` rows: the assignments of the specification for these
rows are appended, nothing else changes. -/
theorem copyPixels_loop (T : PixelType) (source : DicomIntegerPixelAccessor) :
    ∀ (m : Nat) (t : ImageBuffer),
      (List.range m).foldl (fun t y => copyRow T source y t) t =
      { t with stores := t.stores ++ (List.range m).flatMap (rowStoresSpec T source) } := by
  intro m
  induction m with
  | zero => intro t; simp
  | succ m ih =>
    intro t
    rw [List.range_succ, List.foldl_append, ih]
    simp [copyRow, copyRow_loop, List.flatMap_append, rowStoresSpec]

/-- `CopyPixels` appends the assignments of the specification to the target
and changes nothing else. -/
theorem CopyPixels_eq (T : PixelType) (target : ImageBuffer)
    (source : DicomIntegerPixelAccessor) :
    CopyPixels T target source =
      { target with stores := target.stores ++ copyStoresSpec T source } := by
  simp [CopyPixels, copyPixels_loop, copyStoresSpec]

/-- Membership in the assignments of the specification. -/
theorem mem_copyStoresSpec (T : PixelType) (source : DicomIntegerPixelAccessor)
    (s : PixelStore) :
    s ∈ copyStoresSpec T source ↔
      ∃ y, y < source.height ∧ ∃ x, x < source.width ∧ ∃ c, c < source.channelCount ∧
        s = ⟨y, x * source.channelCount + c, copyValue T (source.GetValue x y c)⟩ := by
  simp only [copyStoresSpec, rowStoresSpec, pixelStoresSpec, List.mem_flatMap,
    List.mem_map, List.mem_range]
  constructor
  · rintro ⟨y, hy, x, hx, c, hc, rfl⟩
    exact ⟨y, hy, x, hx, c, hc, rfl⟩
  · rintro ⟨y, hy, x, hx, c, hc, rfl⟩
    exact ⟨y, hy, x, hx, c, hc, rfl⟩

/-- The elements written for the pixels of a row are the elements
`0, ..., w * n - 1`, in this order. -/
theorem row_elements (y n : Nat) : ∀ (w : Nat),
    ((List.range w).flatMap fun x => (List.range n).map fun c => (y, x * n + c)) =
      (List.range (w * n)).map fun k => (y, k) := by
  intro w
  induction w with
  | zero => simp
  | succ w ih =>
    rw [List.range_succ, List.flatMap_append, ih, Nat.succ_mul, List.range_add]
    simp [List.map_append]

/-- No element is written twice by the assignments of the specification. -/
theorem copyStoresSpec_elements_nodup (T : PixelType) (source : DicomIntegerPixelAccessor) :
    ((copyStoresSpec T source).map PixelStore.element).Nodup := by
  have h : (copyStoresSpec T source).map PixelStore.element =
      (List.range source.height).flatMap fun y =>
        (List.range (source.width * source.channelCount)).map fun k => (y, k) := by
    simp only [copyStoresSpec, rowStoresSpec, pixelStoresSpec, List.map_flatMap,
      List.map_map]
    congr 1
    funext y
    rw [← row_elements]
    rfl
  rw [h, List.nodup_flatMap]
  constructor
  · intro y _
    exact (List.nodup_range _).map (fun a b hab => by simpa using hab)
  · refine (List.nodup_range source.height).imp ?_
    intro a b hab
    simp only [Function.onFun]
    intro e h1 h2
    simp only [List.mem_map, List.mem_range] at h1 h2
    obtain ⟨k1, _, rfl⟩ := h1
    obtain ⟨k2, _, h2⟩ := h2
    exact hab (by simpa using (congrArg Prod.fst h2).symm)

/-- In a list where the elements satisfying `p` are all equal to `a`, which
is in the list, the search for `p` finds `a`. -/
theorem find?_eq_some_of_unique {α : Type} (p : α → Bool) (l : List α) (a : α)
    (ha : a ∈ l) (hp : p a = true) (huniq : ∀ b ∈ l, p b = true → b = a) :
    l.find? p = some a := by
  cases h : l.find? p with
  | none => exact absurd hp (List.find?_eq_none.mp h a ha)
  | some b =>
    rw [huniq b (List.mem_of_find?_eq_some h) (List.find?_some h)]

/-- In a list without duplicates where the elements satisfying `p` are all
equal to `a`, which is in the list, exactly one element satisfies `p`. -/
theorem countP_eq_one_of_unique {α : Type} (p : α → Bool) (a : α) :
    ∀ (l : List α), a ∈ l → p a = true → l.Nodup →
      (∀ b ∈ l, p b = true → b = a) → l.countP p = 1
  | [], ha, _, _, _ => by simp at ha
  | b :: l, ha, hp, hnodup, huniq => by
    have hnd := List.nodup_cons.mp hnodup
    by_cases hab : b = a
    · subst hab
      have hzero : l.countP p = 0 := by
        rw [List.countP_eq_zero]
        intro c hc hpc
        have : c = b := huniq c (List.mem_cons_of_mem _ hc) hpc
        exact hnd.1 (this ▸ hc)
      simp [List.countP_cons, hp, hzero]
    · have hal : a ∈ l := by
        rcases List.mem_cons.mp ha with h | h
        · exact absurd h.symm hab
        · exact h
      have hpb : ¬ p b = true := fun h => hab (huniq b (List.mem_cons_self _ _) h)
      have ih := countP_eq_one_of_unique p a l hal hp hnd.2
        (fun c hc hpc => huniq c (List.mem_cons_of_mem _ hc) hpc)
      simp [List.countP_cons, hpb, ih]

/-- C14: `CopyPixels<T>` appends to the target the assignments of the
specification and changes nothing else; for a source of width `w`, height
`h` and `n` channels, after the copy element `x * n + c` of row `y` holds the
saturated value of `GetValue(x, y, c)` for all `y < h`, `x < w`, `c < n`; this
element is written exactly once; and every element written is in a row
`y < h` at an index below `w * n`. -/
theorem CopyPixels_placement (T : PixelType) (target : ImageBuffer)
    (source : DicomIntegerPixelAccessor) :
    CopyPixels T target source =
      { target with stores := target.stores ++ copyStoresSpec T source } ∧
    (∀ y x c, y < source.height → x < source.width → c < source.channelCount →
      (CopyPixels T target source).pixel y (x * source.channelCount + c) =
        some (copyValue T (source.GetValue x y c)) ∧
      (copyStoresSpec T source).countP
        (fun s => s.row = y ∧ s.index = x * source.channelCount + c) = 1) ∧
    (∀ s ∈ copyStoresSpec T source,
      s.row < source.height ∧ s.index < source.width * source.channelCount) := by
  refine ⟨CopyPixels_eq T target source, ?_, ?_⟩
  · intro y x c hy hx hc
    have hmem : (⟨y, x * source.channelCount + c, copyValue T (source.GetValue x y c)⟩ :
        PixelStore) ∈ copyStoresSpec T source :=
      (mem_copyStoresSpec T source _).mpr ⟨y, hy, x, hx, c, hc, rfl⟩
    have hnodup := copyStoresSpec_elements_nodup T source
    have huniq : ∀ b ∈ copyStoresSpec T source,
        decide (b.row = y ∧ b.index = x * source.channelCount + c) = true →
        b = ⟨y, x * source.channelCount + c, copyValue T (source.GetValue x y c)⟩ := by
      intro b hb hpb
      have hkey : b.element =
          (⟨y, x * source.channelCount + c,
            copyValue T (source.GetValue x y c)⟩ : PixelStore).element := by
        simp only [decide_eq_true_eq] at hpb
        simp [PixelStore.element, hpb.1, hpb.2]
      exact List.inj_on_of_nodup_map hnodup hb hmem hkey
    constructor
    · rw [CopyPixels_eq]
      simp only [ImageBuffer.pixel, List.reverse_append, List.find?_append]
      rw [find?_eq_some_of_unique _ _
        ⟨y, x * source.channelCount + c, copyValue T (source.GetValue x y c)⟩
        (List.mem_reverse.mpr hmem) (by simp)
        (fun b hb hpb => huniq b (List.mem_reverse.mp hb) hpb)]
      simp
    · exact countP_eq_one_of_unique _ _ _ hmem (by simp) (List.Nodup.of_map _ hnodup) huniq
  · intro s hs
    obtain ⟨y, hy, x, hx, c, hc, rfl⟩ := (mem_copyStoresSpec T source s).mp hs
    refine ⟨hy, ?_⟩
    show x * source.channelCount + c < source.width * source.channelCount
    calc x * source.channelCount + c
        < x * source.channelCount + source.channelCount := by omega
      _ = (x + 1) * source.channelCount := by rw [Nat.succ_mul]
      _ ≤ source.width * source.channelCount := Nat.mul_le_mul_right _ hx

/-- Witness of C14: in the copy of a 2x2 source of three channels to 8 bits,
element `1 * 3 + 2` of row 1 holds 255, the sample 307 saturated, and is
written once. -/
theorem CopyPixels_placement_witness :
    (CopyPixels .uint8_t exampleTarget exampleSource).pixel 1 (1 * 3 + 2) = some 255 ∧
    (copyStoresSpec .uint8_t exampleSource).countP
      (fun s => s.row = 1 ∧ s.index = 1 * 3 + 2) = 1 :=
  ⟨((CopyPixels_placement .uint8_t exampleTarget exampleSource).2.1 1 1 2
      (by decide) (by decide) (by decide)).1.trans (by decide),
   ((CopyPixels_placement .uint8_t exampleTarget exampleSource).2.1 1 1 2
      (by decide) (by decide) (by decide)).2⟩

/-! ### The uncompressed path -/

/-- `SetupImageBuffer` makes no assignment to the pixels of the target. -/
theorem SetupImageBuffer_stores (tk : Toolkit) (target : ImageBuffer) (dataset : DcmDataset) :
    (SetupImageBuffer tk target dataset).2.stores = target.stores := by
  unfold SetupImageBuffer
  repeat' split
  all_goals first
    | rfl
    | (dsimp only
       repeat' split
       all_goals rfl)

/-- C15: in `DecodeUncompressedImageInternal`, once the pixel source is
available (built, and the frame selected) and `SetupImageBuffer` has
resolved the format: if the channel count of the source differs from the
count the format requires (3 for RGB24, 4 for RGBA32, 1 for the grayscale
formats) it throws InternalError and no pixel is assigned; if it matches,
the result is `CopyPixels` for the sample type of the format (uint8 for
Grayscale8, RGB24 and RGBA32, uint16 for Grayscale16, int16 for
SignedGrayscale16). -/
theorem DecodeUncompressedImageInternal_channel_count (tk : Toolkit)
    (target : ImageBuffer) (dataset : DcmDataset) (frame : Nat)
    (source0 source : DicomIntegerPixelAccessor) (sized : ImageBuffer)
    (hsrc : pixelSource tk dataset = .returns (some source0))
    (hframe : tk.SetCurrentFrame source0 frame = .ok source)
    (hsetup : SetupImageBuffer tk target dataset = (.returns (), sized)) :
    (source.channelCount ≠ requiredChannelCount sized.format →
      DecodeUncompressedImageInternal tk target dataset frame =
        (.throws (.orthanc .InternalError), sized) ∧
      sized.stores = target.stores) ∧
    (source.channelCount = requiredChannelCount sized.format →
      DecodeUncompressedImageInternal tk target dataset frame =
        (.returns (), CopyPixels (copyTypeOf sized.format) sized source)) := by
  have hst : sized.stores = target.stores := by
    have := SetupImageBuffer_stores tk target dataset
    rw [hsetup] at this
    exact this
  constructor
  · intro hne
    refine ⟨?_, hst⟩
    cases hfmt : sized.format <;> rw [hfmt] at hne <;>
      simp [requiredChannelCount] at hne <;>
      simp [DecodeUncompressedImageInternal, hsrc, hframe, hsetup, hfmt, hne]
  · intro heq
    cases hfmt : sized.format <;> rw [hfmt] at heq <;>
      simp [requiredChannelCount] at heq <;>
      simp [DecodeUncompressedImageInternal, hsrc, hframe, hsetup, hfmt, heq, copyTypeOf]

/-- Witness of C15: the accessor of the example toolkit has one channel; a
record declared with three samples of 8 bits is refused with InternalError,
the 16-bit record is copied. -/
theorem DecodeUncompressedImageInternal_channel_count_witness :
    DecodeUncompressedImageInternal exampleToolkit exampleTarget
        { rle1Dataset [0x5A, 0x10, 0x20, 0x05] with
            bitsStored := some "8", samplesPerPixel := some "3" } 0 =
      (.throws (.orthanc .InternalError), ⟨.RGB24, 2, 1, []⟩) ∧
    DecodeUncompressedImageInternal exampleToolkit exampleTarget
        (rle1Dataset [0x5A, 0x10, 0x20, 0x05]) 0 =
      (.returns (), ⟨.Grayscale16, 2, 1, [⟨0, 0, 0x2010⟩, ⟨0, 1, 0x2015⟩]⟩) :=
  ⟨((DecodeUncompressedImageInternal_channel_count exampleToolkit exampleTarget
      { rle1Dataset [0x5A, 0x10, 0x20, 0x05] with
          bitsStored := some "8", samplesPerPixel := some "3" } 0
      ⟨2, 1, 1, fun x _ _ =>
        (([0x10, 0x20, 0x15, 0x20].getD (2 * x) 0 +
          256 * [0x10, 0x20, 0x15, 0x20].getD (2 * x + 1) 0 : Nat) : Int)⟩
      ⟨2, 1, 1, fun x _ _ =>
        (([0x10, 0x20, 0x15, 0x20].getD (2 * x) 0 +
          256 * [0x10, 0x20, 0x15, 0x20].getD (2 * x + 1) 0 : Nat) : Int)⟩
      ⟨.RGB24, 2, 1, []⟩ rfl rfl (by decide)).1 (by decide)).1,
   ((DecodeUncompressedImageInternal_channel_count exampleToolkit exampleTarget
      (rle1Dataset [0x5A, 0x10, 0x20, 0x05]) 0
      ⟨2, 1, 1, fun x _ _ =>
        (([0x10, 0x20, 0x15, 0x20].getD (2 * x) 0 +
          256 * [0x10, 0x20, 0x15, 0x20].getD (2 * x + 1) 0 : Nat) : Int)⟩
      ⟨2, 1, 1, fun x _ _ =>
        (([0x10, 0x20, 0x15, 0x20].getD (2 * x) 0 +
          256 * [0x10, 0x20, 0x15, 0x20].getD (2 * x + 1) 0 : Nat) : Int)⟩
      ⟨.Grayscale16, 2, 1, []⟩ rfl rfl (by decide)).2 rfl).trans (by decide)⟩

/-- C16, as stated, fails: a record whose native pixel data is present but
has no readable byte array, and which carries the compression type
"PMSCT_RLE1" with a private content that `DecodePsmctRle1` decodes, is
refused with BadFileFormat: the codec is not tried. -/
theorem Decode_unreadable_pixel_data_with_rle1 :
    ({ rle1Dataset [0x5A, 0x10, 0x20, 0x05] with
        pixelData := some ⟨false, none, none, true⟩ } : DcmDataset).pixelData =
      some ⟨false, none, none, true⟩ ∧
    DecodePsmctRle1 []
        { rle1Dataset [0x5A, 0x10, 0x20, 0x05] with
            pixelData := some ⟨false, none, none, true⟩ } =
      .returns (true, [0x10, 0x20, 0x15, 0x20]) ∧
    Decode exampleToolkit exampleTarget
        { rle1Dataset [0x5A, 0x10, 0x20, 0x05] with
            pixelData := some ⟨false, none, none, true⟩ } 0 =
      (.throws (.orthanc .BadFileFormat), exampleTarget) := by
  refine ⟨rfl, by decide, by decide⟩

/-- C16, amended: in `DecodeUncompressedImageInternal` the codec is tried
only when the native pixel data is absent. When the native pixel data is
present and its byte array is obtained, the source is the accessor built on
these bytes (or the exception of its constructor), whatever
`DecodePsmctRle1` would do; when it is present but its byte array cannot be
obtained, there is no source and the decode throws BadFileFormat, whatever
the private tags hold; when it is absent, the source is built on the output
of `DecodePsmctRle1` if it returns true, and the decode throws BadFileFormat
if it returns false. -/
theorem DecodeUncompressedImageInternal_source_selection (tk : Toolkit)
    (target : ImageBuffer) (dataset : DcmDataset) (frame : Nat) :
    (∀ e pixData source, dataset.pixelData = some e → e.getUint8Array = some pixData →
      tk.newAccessor dataset pixData = .ok source →
      pixelSource tk dataset = .returns (some source)) ∧
    (∀ e pixData ex, dataset.pixelData = some e → e.getUint8Array = some pixData →
      tk.newAccessor dataset pixData = .error ex →
      pixelSource tk dataset = .throws ex ∧
      DecodeUncompressedImageInternal tk target dataset frame = (.throws ex, target)) ∧
    (∀ e, dataset.pixelData = some e → e.getUint8Array = none →
      pixelSource tk dataset = .returns none ∧
      DecodeUncompressedImageInternal tk target dataset frame =
        (.throws (.orthanc .BadFileFormat), target)) ∧
    (∀ privateContent source, dataset.pixelData = none →
      DecodePsmctRle1 [] dataset = .returns (true, privateContent) →
      tk.newAccessor dataset privateContent = .ok source →
      pixelSource tk dataset = .returns (some source)) ∧
    (∀ output, dataset.pixelData = none →
      DecodePsmctRle1 [] dataset = .returns (false, output) →
      DecodeUncompressedImageInternal tk target dataset frame =
        (.throws (.orthanc .BadFileFormat), target)) := by
  refine ⟨?_, ?_, ?_, ?_, ?_⟩
  · intro e pixData source he hb hacc
    simp [pixelSource, he, hb, hacc]
  · intro e pixData ex he hb hacc
    have hsrc : pixelSource tk dataset = .throws ex := by
      simp [pixelSource, he, hb, hacc]
    exact ⟨hsrc, by simp [DecodeUncompressedImageInternal, hsrc]⟩
  · intro e he hb
    have hsrc : pixelSource tk dataset = .returns none := by
      simp [pixelSource, he, hb]
    exact ⟨hsrc, by simp [DecodeUncompressedImageInternal, hsrc]⟩
  · intro privateContent source hpd hdec hacc
    simp [pixelSource, hpd, hdec, hacc]
  · intro output hpd hdec
    have hsrc : pixelSource tk dataset = .returns none := by
      simp [pixelSource, hpd, hdec]
    simp [DecodeUncompressedImageInternal, hsrc]

/-- Witness of C16 amended: the record with unreadable native pixel data is
refused by `DecodeUncompressedImageInternal`; with readable native pixel
data `01 00 02 00` next to the same private content, the source is built on
the native bytes and the samples decoded are 1 and 2, not those of the
private content. -/
theorem DecodeUncompressedImageInternal_source_selection_witness :
    DecodeUncompressedImageInternal exampleToolkit exampleTarget
        { rle1Dataset [0x5A, 0x10, 0x20, 0x05] with
            pixelData := some ⟨false, none, none, true⟩ } 0 =
      (.throws (.orthanc .BadFileFormat), exampleTarget) ∧
    pixelSource exampleToolkit
        { rle1Dataset [0x5A, 0x10, 0x20, 0x05] with
            pixelData := some (bytesElement true [0x01, 0x00, 0x02, 0x00]) } =
      .returns (some ⟨2, 1, 1, fun x _ _ =>
        (([0x01, 0x00, 0x02, 0x00].getD (2 * x) 0 +
          256 * [0x01, 0x00, 0x02, 0x00].getD (2 * x + 1) 0 : Nat) : Int)⟩) ∧
    DecodeUncompressedImageInternal exampleToolkit exampleTarget
        { rle1Dataset [0x5A, 0x10, 0x20, 0x05] with
            pixelData := some (bytesElement true [0x01, 0x00, 0x02, 0x00]) } 0 =
      (.returns (), ⟨.Grayscale16, 2, 1, [⟨0, 0, 1⟩, ⟨0, 1, 2⟩]⟩) :=
  ⟨((DecodeUncompressedImageInternal_source_selection exampleToolkit exampleTarget
      { rle1Dataset [0x5A, 0x10, 0x20, 0x05] with
          pixelData := some ⟨false, none, none, true⟩ } 0).2.2.1
      ⟨false, none, none, true⟩ rfl rfl).2,
   (DecodeUncompressedImageInternal_source_selection exampleToolkit exampleTarget
      { rle1Dataset [0x5A, 0x10, 0x20, 0x05] with
          pixelData := some (bytesElement true [0x01, 0x00, 0x02, 0x00]) } 0).1
      (bytesElement true [0x01, 0x00, 0x02, 0x00]) [0x01, 0x00, 0x02, 0x00] _ rfl rfl rfl,
   by decide⟩

/-! ### Applicability of the codec -/

/-- C17: `IsPsmctRle1` returns true exactly when the compression type
(0x07a1, 0x1011) is present, is a string and its value is "PMSCT_RLE1"; when
it returns false, `DecodePsmctRle1` returns false, throws nothing and leaves
`output` as it was. -/
theorem IsPsmctRle1_iff (output : List Nat) (dataset : DcmDataset) :
    (IsPsmctRle1 dataset = true ↔
      ∃ e, dataset.compressionType = some e ∧ e.isaString = true ∧
        e.getString = some "PMSCT_RLE1") ∧
    (IsPsmctRle1 dataset = false →
      DecodePsmctRle1 output dataset = .returns (false, output)) ∧
    (dataset.compressionType = none ∨
      (∃ e, dataset.compressionType = some e ∧
        (e.isaString = false ∨ e.getString ≠ some "PMSCT_RLE1")) →
      DecodePsmctRle1 output dataset = .returns (false, output)) := by
  have hiff : IsPsmctRle1 dataset = true ↔
      ∃ e, dataset.compressionType = some e ∧ e.isaString = true ∧
        e.getString = some "PMSCT_RLE1" := by
    cases hc : dataset.compressionType with
    | none => simp [IsPsmctRle1, hc]
    | some e =>
      cases hs : e.isaString with
      | false => simp [IsPsmctRle1, hc, hs]
      | true =>
        cases hg : e.getString with
        | none => simp [IsPsmctRle1, hc, hs, hg]
        | some c => simp [IsPsmctRle1, hc, hs, hg]
  refine ⟨hiff, DecodePsmctRle1_not_applicable output dataset, ?_⟩
  intro h
  apply DecodePsmctRle1_not_applicable
  cases hv : IsPsmctRle1 dataset with
  | false => rfl
  | true =>
    exfalso
    obtain ⟨e, he, hs, hg⟩ := hiff.mp hv
    rcases h with h | ⟨e', he', h⟩
    · simp [he] at h
    · rw [he] at he'
      cases he'
      rcases h with h | h
      · simp [hs] at h
      · exact h hg

/-- Witness of C17: a record whose compression type is another string. -/
theorem IsPsmctRle1_iff_witness :
    IsPsmctRle1 { rle1Dataset [1, 2] with
        compressionType := some (stringElement "PMSCT_RLE2") } = false ∧
    DecodePsmctRle1 [7] { rle1Dataset [1, 2] with
        compressionType := some (stringElement "PMSCT_RLE2") } = .returns (false, [7]) :=
  ⟨by decide,
    (IsPsmctRle1_iff [7] { rle1Dataset [1, 2] with
        compressionType := some (stringElement "PMSCT_RLE2") }).2.1 (by decide)⟩

/-! ### Order of the validations on the uncompressed path -/

/-- C18, as stated, fails: an uncompressed record with BitsStored 12, an
unsupported format for which `SetupImageBuffer` throws NotImplemented, and
without pixel source is refused by `Decode` with BadFileFormat, the target
being left as it was: the pixel source is sought before the format is
resolved. -/
theorem Decode_unsupported_format_without_source :
    IsUncompressedImage
        { rle1Dataset [] with bitsStored := some "12", compressionType := none } = true ∧
    SetupImageBuffer exampleToolkit exampleTarget
        { rle1Dataset [] with bitsStored := some "12", compressionType := none } =
      (.throws (.orthanc .NotImplemented), ⟨.Grayscale8, 2, 1, []⟩) ∧
    Decode exampleToolkit exampleTarget
        { rle1Dataset [] with bitsStored := some "12", compressionType := none } 0 =
      (.throws (.orthanc .BadFileFormat), exampleTarget) := by
  refine ⟨by decide, by decide, by decide⟩

/-- C18, amended: on the uncompressed path the pixel source is sought before
the format is resolved. When there is no pixel source `Decode` throws
BadFileFormat without calling `SetupImageBuffer`, whatever the attributes
are; when the pixel source is available (built, and the frame selected),
every failure of `SetupImageBuffer` is the failure of `Decode`: NotImplemented
for an unsupported triple, BadFileFormat for a missing required attribute. -/
theorem Decode_uncompressed_validation_order (tk : Toolkit) (target : ImageBuffer)
    (dataset : DcmDataset) (frame : Nat) (hu : IsUncompressedImage dataset = true) :
    (pixelSource tk dataset = .returns none →
      Decode tk target dataset frame = (.throws (.orthanc .BadFileFormat), target)) ∧
    (∀ source0 source ex after, pixelSource tk dataset = .returns (some source0) →
      tk.SetCurrentFrame source0 frame = .ok source →
      SetupImageBuffer tk target dataset = (.throws ex, after) →
      Decode tk target dataset frame = (.throws ex, after)) := by
  constructor
  · intro hsrc
    simp [Decode, hu, DecodeUncompressedImage, DecodeUncompressedImageInternal, hsrc, Run.map]
  · intro source0 source ex after hsrc hframe hsetup
    simp [Decode, hu, DecodeUncompressedImage, DecodeUncompressedImageInternal, hsrc,
      hframe, hsetup, Run.map]

/-- Witness of C18 amended: with the private content as pixel source, the
record with BitsStored 12 is refused with NotImplemented, and the record
without Rows with BadFileFormat; without pixel source the record with
BitsStored 12 is refused with BadFileFormat. -/
theorem Decode_uncompressed_validation_order_witness :
    Decode exampleToolkit exampleTarget
        { rle1Dataset [0x05, 0x06] with bitsStored := some "12" } 0 =
      (.throws (.orthanc .NotImplemented), ⟨.Grayscale8, 2, 1, []⟩) ∧
    Decode exampleToolkit exampleTarget
        { rle1Dataset [0x05, 0x06] with rows := none } 0 =
      (.throws (.orthanc .BadFileFormat), exampleTarget) ∧
    Decode exampleToolkit exampleTarget
        { rle1Dataset [] with bitsStored := some "12", compressionType := none } 0 =
      (.throws (.orthanc .BadFileFormat), exampleTarget) :=
  ⟨(Decode_uncompressed_validation_order exampleToolkit exampleTarget
      { rle1Dataset [0x05, 0x06] with bitsStored := some "12" } 0 (by decide)).2
      ⟨2, 1, 1, fun x _ _ =>
        (([0x05, 0x00, 0x0B, 0x00].getD (2 * x) 0 +
          256 * [0x05, 0x00, 0x0B, 0x00].getD (2 * x + 1) 0 : Nat) : Int)⟩
      ⟨2, 1, 1, fun x _ _ =>
        (([0x05, 0x00, 0x0B, 0x00].getD (2 * x) 0 +
          256 * [0x05, 0x00, 0x0B, 0x00].getD (2 * x + 1) 0 : Nat) : Int)⟩
      (.orthanc .NotImplemented) ⟨.Grayscale8, 2, 1, []⟩ rfl rfl (by decide),
   (Decode_uncompressed_validation_order exampleToolkit exampleTarget
      { rle1Dataset [0x05, 0x06] with rows := none } 0 (by decide)).2
      ⟨2, 1, 1, fun x _ _ =>
        (([0x05, 0x00, 0x0B, 0x00].getD (2 * x) 0 +
          256 * [0x05, 0x00, 0x0B, 0x00].getD (2 * x + 1) 0 : Nat) : Int)⟩
      ⟨2, 1, 1, fun x _ _ =>
        (([0x05, 0x00, 0x0B, 0x00].getD (2 * x) 0 +
          256 * [0x05, 0x00, 0x0B, 0x00].getD (2 * x + 1) 0 : Nat) : Int)⟩
      (.orthanc .BadFileFormat) exampleTarget rfl rfl (by decide),
   (Decode_uncompressed_validation_order exampleToolkit exampleTarget
      { rle1Dataset [] with bitsStored := some "12", compressionType := none } 0
      (by decide)).1 rfl⟩

/-! ### Length of the output of `DecodePsmctRle1` -/

/-- A byte other than the marker counts for one sample. -/
theorem deltaSampleCount_cons_ne (b : Nat) (tl : List Nat) (hb : b ≠ 0x5a) :
    deltaSampleCount (b :: tl) = 1 + deltaSampleCount tl := by
  cases tl with
  | nil => simp [deltaSampleCount, hb]
  | cons r t => cases t <;> simp [deltaSampleCount, hb]

/-- The rest of a list from an index that holds `b`. -/
theorem drop_eq_cons_of_getElem? (l : List Nat) (i b : Nat) (h : l[i]? = some b) :
    l.drop i = b :: l.drop (i + 1) := by
  obtain ⟨hi, hb⟩ := List.getElem?_eq_some.mp h
  rw [List.drop_eq_getElem_cons hi, hb]

/-- Invariant of the loop of the delta pass: when it returns, it has
appended two bytes per sample of `temp[i ..]`. -/
theorem deltaLoop_length (temp : List Nat) :
    ∀ (fuel i delta : Nat) (output built : List Nat),
      deltaLoop temp fuel i delta output = .returns built →
      built.length = output.length + 2 * deltaSampleCount (temp.drop i) := by
  intro fuel
  induction fuel with
  | zero =>
    intro i delta output built h
    by_cases hi : i < temp.length
    · simp [deltaLoop, hi] at h
    · simp only [deltaLoop, hi, if_false, Run.returns.injEq] at h
      subst h
      simp [List.drop_eq_nil_of_le (Nat.le_of_not_lt hi), deltaSampleCount]
  | succ fuel ih =>
    intro i delta output built h
    by_cases hi : i < temp.length
    · cases hb : temp[i]? with
      | none => simp [deltaLoop, hi, deltaStep, hb] at h
      | some b =>
        by_cases hm : b = 0x5a
        · cases h1 : temp[i + 1]? with
          | none => simp [deltaLoop, hi, deltaStep, hb, hm, h1] at h
          | some v1 =>
            cases h2 : temp[i + 2]? with
            | none => simp [deltaLoop, hi, deltaStep, hb, hm, h1, h2] at h
            | some v2 =>
              simp only [deltaLoop, hi, if_true, deltaStep, hb, hm, h1, h2] at h
              have hlen := ih _ _ _ _ h
              rw [drop_eq_cons_of_getElem? temp i b hb,
                drop_eq_cons_of_getElem? temp (i + 1) v1 h1,
                drop_eq_cons_of_getElem? temp (i + 1 + 1) v2 h2, hm,
                show i + 1 + 1 + 1 = i + 2 + 1 from rfl]
              simp only [deltaSampleCount, if_true]
              simp only [List.length_append, List.length_cons, List.length_nil] at hlen
              omega
        · simp only [deltaLoop, hi, if_true, deltaStep, hb, hm, if_false] at h
          have hlen := ih _ _ _ _ h
          rw [drop_eq_cons_of_getElem? temp i b hb, deltaSampleCount_cons_ne b _ hm]
          simp only [List.length_append, List.length_cons, List.length_nil] at hlen
          omega
    · simp only [deltaLoop, hi, if_false, Run.returns.injEq] at h
      subst h
      simp [List.drop_eq_nil_of_le (Nat.le_of_not_lt hi), deltaSampleCount]

/-- C19: when the dataset is in the PMSCT_RLE1 encoding and both passes of
`DecodePsmctRle1` stay within their buffers, the run-length pass returning
`temp` and the delta pass `built`, the length of `built` is twice the number
of samples of `temp` (one per byte other than 0x5A and one per triple
`[0x5A, lo, hi]`); so it is even, the final trimming removes nothing, and
`DecodePsmctRle1` returns true with `built` whole. -/
theorem DecodePsmctRle1_output_length (output : List Nat) (dataset : DcmDataset)
    (e : DcmElement) (inbuffer temp built : List Nat)
    (happ : IsPsmctRle1 dataset = true) (hc : dataset.content = some e)
    (hin : e.getUint8Array = some inbuffer)
    (hrle : rlePass inbuffer = .returns temp) (hdelta : deltaPass temp = .returns built) :
    built.length = 2 * deltaSampleCount temp ∧
    built.length % 2 = 0 ∧
    trimOdd built = built ∧
    DecodePsmctRle1 output dataset = .returns (true, built) := by
  have hlen : built.length = 2 * deltaSampleCount temp := by
    have := deltaLoop_length temp temp.length 0 0 [] built hdelta
    simpa using this
  have heven : built.length % 2 = 0 := by omega
  have htrim : trimOdd built = built := by simp [trimOdd, heven]
  refine ⟨hlen, heven, htrim, ?_⟩
  simp [DecodePsmctRle1, happ, hc, hin, hrle, hdelta, htrim]

/-- Witness of C19: a content with a run and an escape; the delta pass
produces 5 samples, 10 bytes. -/
theorem DecodePsmctRle1_output_length_witness :
    deltaSampleCount [0x01, 0x01, 0x01, 0x5A, 0x10, 0x20, 0xFF] = 5 ∧
    DecodePsmctRle1 [] (rle1Dataset [0xA5, 0x02, 0x01, 0x5A, 0x10, 0x20, 0xFF]) =
      .returns (true, [0x01, 0x00, 0x02, 0x00, 0x03, 0x00, 0x10, 0x20, 0x0F, 0x20]) :=
  ⟨by decide,
    (DecodePsmctRle1_output_length [] (rle1Dataset [0xA5, 0x02, 0x01, 0x5A, 0x10, 0x20, 0xFF])
      (bytesElement false [0xA5, 0x02, 0x01, 0x5A, 0x10, 0x20, 0xFF])
      [0xA5, 0x02, 0x01, 0x5A, 0x10, 0x20, 0xFF]
      [0x01, 0x01, 0x01, 0x5A, 0x10, 0x20, 0xFF]
      [0x01, 0x00, 0x02, 0x00, 0x03, 0x00, 0x10, 0x20, 0x0F, 0x20]
      (by decide) rfl rfl (by decide) (by decide)).2.2.2⟩

/-! ### `Decode` and BadParameterType -/

/-- The loop of the run-length pass throws nothing. -/
theorem rleLoop_no_throw (inbuffer : List Nat) (ex : Exception) :
    ∀ (fuel i : Nat) (temp : List Nat), rleLoop inbuffer fuel i temp ≠ .throws ex := by
  intro fuel
  induction fuel with
  | zero =>
    intro i temp
    unfold rleLoop
    split <;> simp
  | succ fuel ih =>
    intro i temp
    unfold rleLoop
    repeat' split
    all_goals first
      | exact ih _ _
      | simp

/-- The loop of the delta pass throws nothing. -/
theorem deltaLoop_no_throw (temp : List Nat) (ex : Exception) :
    ∀ (fuel i delta : Nat) (output : List Nat),
      deltaLoop temp fuel i delta output ≠ .throws ex := by
  intro fuel
  induction fuel with
  | zero =>
    intro i delta output
    unfold deltaLoop
    split <;> simp
  | succ fuel ih =>
    intro i delta output
    unfold deltaLoop
    split
    · split
      · exact ih _ _ _
      · rename_i hstep
        unfold deltaStep at hstep
        repeat' split at hstep
        all_goals simp at hstep
      · simp
      · simp
    · simp

/-- `DecodePsmctRle1` throws nothing. -/
theorem DecodePsmctRle1_no_throw (output : List Nat) (dataset : DcmDataset)
    (ex : Exception) : DecodePsmctRle1 output dataset ≠ .throws ex := by
  unfold DecodePsmctRle1
  repeat' split
  all_goals first
    | (rename_i h; exact absurd h (rleLoop_no_throw _ _ _ _ _))
    | (rename_i h; exact absurd h (deltaLoop_no_throw _ _ _ _ _ _))
    | simp

/-- `SetupImageBuffer` does not throw BadParameterType. -/
theorem SetupImageBuffer_ne_BadParameterType (tk : Toolkit) (target : ImageBuffer)
    (dataset : DcmDataset) :
    (SetupImageBuffer tk target dataset).1 ≠ .throws (.orthanc .BadParameterType) := by
  unfold SetupImageBuffer
  repeat' split
  all_goals (try dsimp only)
  all_goals repeat' split
  all_goals simp

/-- With an accessor that does not throw BadParameterType, neither does
`DecodeUncompressedImageInternal`. -/
theorem DecodeUncompressedImageInternal_ne_BadParameterType (tk : Toolkit)
    (target : ImageBuffer) (dataset : DcmDataset) (frame : Nat)
    (hacc : ∀ ds bytes, tk.newAccessor ds bytes ≠ .error (.orthanc .BadParameterType))
    (hfr : ∀ s f, tk.SetCurrentFrame s f ≠ .error (.orthanc .BadParameterType)) :
    (DecodeUncompressedImageInternal tk target dataset frame).1 ≠
      .throws (.orthanc .BadParameterType) := by
  have hsrc : pixelSource tk dataset ≠ .throws (.orthanc .BadParameterType) := by
    unfold pixelSource
    repeat' split
    all_goals first
      | (rename_i h; intro hx; simp only [Run.throws.injEq] at hx; subst hx
         exact hacc _ _ h)
      | (rename_i h; intro hx; simp only [Run.throws.injEq] at hx; subst hx
         exact DecodePsmctRle1_no_throw _ _ _ h)
      | simp
  unfold DecodeUncompressedImageInternal
  split
  · rename_i ex h
    intro hx
    simp only [Run.throws.injEq] at hx
    subst hx
    exact hsrc h
  · simp
  · simp
  · simp
  · split
    · rename_i ex h
      intro hx
      simp only [Run.throws.injEq] at hx
      subst hx
      exact hfr _ _ h
    · split
      · repeat' split
        all_goals first
          | (simp; done)
          | (simp; split <;> simp)
      · rename_i r t hne heq
        have := SetupImageBuffer_ne_BadParameterType tk target dataset
        rw [heq] at this
        exact this

/-- C20: with a pixel accessor whose construction and frame selection do
not throw BadParameterType, `Decode` never fails with BadParameterType:
when `Decode` calls `DecodeUncompressedImage` its guard holds and the call
is `DecodeUncompressedImageInternal`; when it calls `DecodeJpegLossless` its
guard holds; and on the fallback path the converted clone goes to
`DecodeUncompressedImageInternal` directly, its transfer syntax not being
tested. -/
theorem Decode_never_BadParameterType (tk : Toolkit) (target : ImageBuffer)
    (dataset : DcmDataset) (frame : Nat)
    (hacc : ∀ ds bytes, tk.newAccessor ds bytes ≠ .error (.orthanc .BadParameterType))
    (hfr : ∀ s f, tk.SetCurrentFrame s f ≠ .error (.orthanc .BadParameterType)) :
    (Decode tk target dataset frame).1 ≠ .throws (.orthanc .BadParameterType) ∧
    (IsUncompressedImage dataset = true →
      DecodeUncompressedImage tk target dataset frame =
        DecodeUncompressedImageInternal tk target dataset frame) ∧
    (IsJpegLossless dataset = true →
      (DecodeJpegLossless tk target dataset frame).1 ≠
        .throws (.orthanc .BadParameterType)) ∧
    (IsUncompressedImage dataset = false →
      (tk.jpegLosslessEnabled && IsJpegLossless dataset) = false →
      tk.canWriteXfer (tk.chooseRepresentation dataset) = true →
      Decode tk target dataset frame =
        ((DecodeUncompressedImageInternal tk target
            (tk.chooseRepresentation dataset) frame).1.map (fun _ => true),
          (DecodeUncompressedImageInternal tk target
            (tk.chooseRepresentation dataset) frame).2)) := by
  have hmap : ∀ (r : Run Unit), r ≠ .throws (.orthanc .BadParameterType) →
      r.map (fun _ => true) ≠ .throws (.orthanc .BadParameterType) := by
    intro r hr
    cases r <;> simp_all [Run.map]
  have hjpeg : IsJpegLossless dataset = true →
      (DecodeJpegLossless tk target dataset frame).1 ≠
        .throws (.orthanc .BadParameterType) := by
    intro hj
    unfold DecodeJpegLossless
    simp only [hj, Bool.not_true, Bool.false_eq_true, if_false]
    split
    · simp
    · split
      · simp
      · split
        · simp
        · split
          · split <;> simp
          · rename_i r t hne heq
            have := SetupImageBuffer_ne_BadParameterType tk target dataset
            rw [heq] at this
            exact this
  refine ⟨?_, ?_, hjpeg, ?_⟩
  · unfold Decode
    split
    · rename_i hu
      simp only [DecodeUncompressedImage, hu, Bool.not_true, Bool.false_eq_true, if_false]
      exact hmap _ (DecodeUncompressedImageInternal_ne_BadParameterType tk target dataset
        frame hacc hfr)
    · split
      · rename_i hj
        simp only [Bool.and_eq_true] at hj
        exact hmap _ (hjpeg hj.2)
      · dsimp only
        split
        · exact hmap _ (DecodeUncompressedImageInternal_ne_BadParameterType tk target _
            frame hacc hfr)
        · simp
  · intro hu
    simp [DecodeUncompressedImage, hu]
  · intro hu hj hw
    simp [Decode, hu, hj, hw]

/-- Witness of C20: the accessor of the example toolkit throws nothing; the
decoding of a record in another transfer syntax, for which the example
toolkit cannot transcode, does not fail with BadParameterType. -/
theorem Decode_never_BadParameterType_witness :
    (Decode exampleToolkit exampleTarget
        { rle1Dataset [] with originalXfer := .EXS_Other 4 } 0).1 ≠
      .throws (.orthanc .BadParameterType) ∧
    (Decode exampleToolkit exampleTarget
        { rle1Dataset [] with originalXfer := .EXS_JPEGLSLossless } 0).1 ≠
      .throws (.orthanc .BadParameterType) :=
  ⟨(Decode_never_BadParameterType exampleToolkit exampleTarget
      { rle1Dataset [] with originalXfer := .EXS_Other 4 } 0
      (fun _ _ h => by simp [exampleToolkit] at h)
      (fun _ _ h => by simp [exampleToolkit] at h)).1,
   (Decode_never_BadParameterType exampleToolkit exampleTarget
      { rle1Dataset [] with originalXfer := .EXS_JPEGLSLossless } 0
      (fun _ _ h => by simp [exampleToolkit] at h)
      (fun _ _ h => by simp [exampleToolkit] at h)).1⟩

end Orthanc
